import Mathlib

/-!
Shallow embedding of the tinter log handler (pwntr/tinter, files
src/handler.go and src/buffer.go) together with proofs about the claims
of the specification.

Modelling conventions:
* Go strings and the append-only byte buffer are modelled by Lean
  strings (the handler only ever appends valid UTF-8 text).
* Go runes are modelled by Lean characters.
* Go integers (slog.Level, int64, uint64) are modelled by Int and Nat;
  the handler never relies on wrap-around behaviour.
* Functions that in Go mutate a buffer in place (appendX(buf, ...)) are
  modelled as functions returning the appended text; the caller
  concatenates the pieces in the same order as the source.
* Go standard-library helpers used by the handler (strconv quoting,
  unicode tables, time formatting, path splitting) are modelled by
  executable Lean functions implementing the documented behaviour of
  those helpers on the inputs the handler can produce.
-/

namespace Tinter

/-! ### Decimal formatting (model of strconv.AppendInt / AppendUint) -/

/-- Decimal digit character, as produced by strconv for digits 0-9. -/
def digitChar (d : Nat) : Char := Char.ofNat ('0'.toNat + d)

/-- Accumulator-based decimal rendering of a natural number.  The fuel
only drives the structural recursion; any fuel above the digit count
(n + 1 always is) yields the digits. -/
def natToDecAux (fuel : Nat) (n : Nat) (acc : List Char) : List Char :=
  match fuel with
  | 0 => acc
  | f + 1 =>
    if n < 10 then digitChar n :: acc
    else natToDecAux f (n / 10) (digitChar (n % 10) :: acc)

/-- Decimal digit characters of a natural number. -/
def natDigits (n : Nat) : List Char := natToDecAux (n + 1) n []

/-- Decimal rendering of a natural number (model of strconv.AppendUint). -/
def natToDec (n : Nat) : String := String.mk (natDigits n)

/-- Decimal rendering of an integer (model of strconv.AppendInt). -/
def intToDec (i : Int) : String :=
  if i < 0 then "-" ++ natToDec i.natAbs else natToDec i.toNat

/-! ### Unicode predicates used by needsQuoting -/

/-- Model of Go unicode.IsSpace: the Unicode White_Space property
(the table is small and is reproduced here in full). -/
def goIsSpace (c : Char) : Bool :=
  let n := c.toNat
  (9 ≤ n && n ≤ 13) || n == 32 || n == 0x85 || n == 0xA0 ||
  n == 0x1680 || (0x2000 ≤ n && n ≤ 0x200A) ||
  n == 0x2028 || n == 0x2029 || n == 0x202F || n == 0x205F || n == 0x3000

/-- Merged code-point ranges of the Unicode categories L, M, N, P and S
above U+00FF (Unicode character database 14.0.0): the data behind Go's
unicode.IsPrint range tables. -/
def printRanges : List (Nat × Nat) :=
  [(0x100, 0x377), (0x37a, 0x37f), (0x384, 0x38a), (0x38c, 0x38c), (0x38e, 0x3a1), (0x3a3, 0x52f),
   (0x531, 0x556), (0x559, 0x58a), (0x58d, 0x58f), (0x591, 0x5c7), (0x5d0, 0x5ea), (0x5ef, 0x5f4),
   (0x606, 0x61b), (0x61d, 0x6dc), (0x6de, 0x70d), (0x710, 0x74a), (0x74d, 0x7b1), (0x7c0, 0x7fa),
   (0x7fd, 0x82d), (0x830, 0x83e), (0x840, 0x85b), (0x85e, 0x85e), (0x860, 0x86a), (0x870, 0x88e),
   (0x898, 0x8e1), (0x8e3, 0x983), (0x985, 0x98c), (0x98f, 0x990), (0x993, 0x9a8), (0x9aa, 0x9b0),
   (0x9b2, 0x9b2), (0x9b6, 0x9b9), (0x9bc, 0x9c4), (0x9c7, 0x9c8), (0x9cb, 0x9ce), (0x9d7, 0x9d7),
   (0x9dc, 0x9dd), (0x9df, 0x9e3), (0x9e6, 0x9fe), (0xa01, 0xa03), (0xa05, 0xa0a), (0xa0f, 0xa10),
   (0xa13, 0xa28), (0xa2a, 0xa30), (0xa32, 0xa33), (0xa35, 0xa36), (0xa38, 0xa39), (0xa3c, 0xa3c),
   (0xa3e, 0xa42), (0xa47, 0xa48), (0xa4b, 0xa4d), (0xa51, 0xa51), (0xa59, 0xa5c), (0xa5e, 0xa5e),
   (0xa66, 0xa76), (0xa81, 0xa83), (0xa85, 0xa8d), (0xa8f, 0xa91), (0xa93, 0xaa8), (0xaaa, 0xab0),
   (0xab2, 0xab3), (0xab5, 0xab9), (0xabc, 0xac5), (0xac7, 0xac9), (0xacb, 0xacd), (0xad0, 0xad0),
   (0xae0, 0xae3), (0xae6, 0xaf1), (0xaf9, 0xaff), (0xb01, 0xb03), (0xb05, 0xb0c), (0xb0f, 0xb10),
   (0xb13, 0xb28), (0xb2a, 0xb30), (0xb32, 0xb33), (0xb35, 0xb39), (0xb3c, 0xb44), (0xb47, 0xb48),
   (0xb4b, 0xb4d), (0xb55, 0xb57), (0xb5c, 0xb5d), (0xb5f, 0xb63), (0xb66, 0xb77), (0xb82, 0xb83),
   (0xb85, 0xb8a), (0xb8e, 0xb90), (0xb92, 0xb95), (0xb99, 0xb9a), (0xb9c, 0xb9c), (0xb9e, 0xb9f),
   (0xba3, 0xba4), (0xba8, 0xbaa), (0xbae, 0xbb9), (0xbbe, 0xbc2), (0xbc6, 0xbc8), (0xbca, 0xbcd),
   (0xbd0, 0xbd0), (0xbd7, 0xbd7), (0xbe6, 0xbfa), (0xc00, 0xc0c), (0xc0e, 0xc10), (0xc12, 0xc28),
   (0xc2a, 0xc39), (0xc3c, 0xc44), (0xc46, 0xc48), (0xc4a, 0xc4d), (0xc55, 0xc56), (0xc58, 0xc5a),
   (0xc5d, 0xc5d), (0xc60, 0xc63), (0xc66, 0xc6f), (0xc77, 0xc8c), (0xc8e, 0xc90), (0xc92, 0xca8),
   (0xcaa, 0xcb3), (0xcb5, 0xcb9), (0xcbc, 0xcc4), (0xcc6, 0xcc8), (0xcca, 0xccd), (0xcd5, 0xcd6),
   (0xcdd, 0xcde), (0xce0, 0xce3), (0xce6, 0xcef), (0xcf1, 0xcf2), (0xd00, 0xd0c), (0xd0e, 0xd10),
   (0xd12, 0xd44), (0xd46, 0xd48), (0xd4a, 0xd4f), (0xd54, 0xd63), (0xd66, 0xd7f), (0xd81, 0xd83),
   (0xd85, 0xd96), (0xd9a, 0xdb1), (0xdb3, 0xdbb), (0xdbd, 0xdbd), (0xdc0, 0xdc6), (0xdca, 0xdca),
   (0xdcf, 0xdd4), (0xdd6, 0xdd6), (0xdd8, 0xddf), (0xde6, 0xdef), (0xdf2, 0xdf4), (0xe01, 0xe3a),
   (0xe3f, 0xe5b), (0xe81, 0xe82), (0xe84, 0xe84), (0xe86, 0xe8a), (0xe8c, 0xea3), (0xea5, 0xea5),
   (0xea7, 0xebd), (0xec0, 0xec4), (0xec6, 0xec6), (0xec8, 0xecd), (0xed0, 0xed9), (0xedc, 0xedf),
   (0xf00, 0xf47), (0xf49, 0xf6c), (0xf71, 0xf97), (0xf99, 0xfbc), (0xfbe, 0xfcc), (0xfce, 0xfda),
   (0x1000, 0x10c5), (0x10c7, 0x10c7), (0x10cd, 0x10cd), (0x10d0, 0x1248), (0x124a, 0x124d),
   (0x1250, 0x1256), (0x1258, 0x1258), (0x125a, 0x125d), (0x1260, 0x1288), (0x128a, 0x128d),
   (0x1290, 0x12b0), (0x12b2, 0x12b5), (0x12b8, 0x12be), (0x12c0, 0x12c0), (0x12c2, 0x12c5),
   (0x12c8, 0x12d6), (0x12d8, 0x1310), (0x1312, 0x1315), (0x1318, 0x135a), (0x135d, 0x137c),
   (0x1380, 0x1399), (0x13a0, 0x13f5), (0x13f8, 0x13fd), (0x1400, 0x167f), (0x1681, 0x169c),
   (0x16a0, 0x16f8), (0x1700, 0x1715), (0x171f, 0x1736), (0x1740, 0x1753), (0x1760, 0x176c),
   (0x176e, 0x1770), (0x1772, 0x1773), (0x1780, 0x17dd), (0x17e0, 0x17e9), (0x17f0, 0x17f9),
   (0x1800, 0x180d), (0x180f, 0x1819), (0x1820, 0x1878), (0x1880, 0x18aa), (0x18b0, 0x18f5),
   (0x1900, 0x191e), (0x1920, 0x192b), (0x1930, 0x193b), (0x1940, 0x1940), (0x1944, 0x196d),
   (0x1970, 0x1974), (0x1980, 0x19ab), (0x19b0, 0x19c9), (0x19d0, 0x19da), (0x19de, 0x1a1b),
   (0x1a1e, 0x1a5e), (0x1a60, 0x1a7c), (0x1a7f, 0x1a89), (0x1a90, 0x1a99), (0x1aa0, 0x1aad),
   (0x1ab0, 0x1ace), (0x1b00, 0x1b4c), (0x1b50, 0x1b7e), (0x1b80, 0x1bf3), (0x1bfc, 0x1c37),
   (0x1c3b, 0x1c49), (0x1c4d, 0x1c88), (0x1c90, 0x1cba), (0x1cbd, 0x1cc7), (0x1cd0, 0x1cfa),
   (0x1d00, 0x1f15), (0x1f18, 0x1f1d), (0x1f20, 0x1f45), (0x1f48, 0x1f4d), (0x1f50, 0x1f57),
   (0x1f59, 0x1f59), (0x1f5b, 0x1f5b), (0x1f5d, 0x1f5d), (0x1f5f, 0x1f7d), (0x1f80, 0x1fb4),
   (0x1fb6, 0x1fc4), (0x1fc6, 0x1fd3), (0x1fd6, 0x1fdb), (0x1fdd, 0x1fef), (0x1ff2, 0x1ff4),
   (0x1ff6, 0x1ffe), (0x2010, 0x2027), (0x2030, 0x205e), (0x2070, 0x2071), (0x2074, 0x208e),
   (0x2090, 0x209c), (0x20a0, 0x20c0), (0x20d0, 0x20f0), (0x2100, 0x218b), (0x2190, 0x2426),
   (0x2440, 0x244a), (0x2460, 0x2b73), (0x2b76, 0x2b95), (0x2b97, 0x2cf3), (0x2cf9, 0x2d25),
   (0x2d27, 0x2d27), (0x2d2d, 0x2d2d), (0x2d30, 0x2d67), (0x2d6f, 0x2d70), (0x2d7f, 0x2d96),
   (0x2da0, 0x2da6), (0x2da8, 0x2dae), (0x2db0, 0x2db6), (0x2db8, 0x2dbe), (0x2dc0, 0x2dc6),
   (0x2dc8, 0x2dce), (0x2dd0, 0x2dd6), (0x2dd8, 0x2dde), (0x2de0, 0x2e5d), (0x2e80, 0x2e99),
   (0x2e9b, 0x2ef3), (0x2f00, 0x2fd5), (0x2ff0, 0x2ffb), (0x3001, 0x303f), (0x3041, 0x3096),
   (0x3099, 0x30ff), (0x3105, 0x312f), (0x3131, 0x318e), (0x3190, 0x31e3), (0x31f0, 0x321e),
   (0x3220, 0xa48c), (0xa490, 0xa4c6), (0xa4d0, 0xa62b), (0xa640, 0xa6f7), (0xa700, 0xa7ca),
   (0xa7d0, 0xa7d1), (0xa7d3, 0xa7d3), (0xa7d5, 0xa7d9), (0xa7f2, 0xa82c), (0xa830, 0xa839),
   (0xa840, 0xa877), (0xa880, 0xa8c5), (0xa8ce, 0xa8d9), (0xa8e0, 0xa953), (0xa95f, 0xa97c),
   (0xa980, 0xa9cd), (0xa9cf, 0xa9d9), (0xa9de, 0xa9fe), (0xaa00, 0xaa36), (0xaa40, 0xaa4d),
   (0xaa50, 0xaa59), (0xaa5c, 0xaac2), (0xaadb, 0xaaf6), (0xab01, 0xab06), (0xab09, 0xab0e),
   (0xab11, 0xab16), (0xab20, 0xab26), (0xab28, 0xab2e), (0xab30, 0xab6b), (0xab70, 0xabed),
   (0xabf0, 0xabf9), (0xac00, 0xd7a3), (0xd7b0, 0xd7c6), (0xd7cb, 0xd7fb), (0xf900, 0xfa6d),
   (0xfa70, 0xfad9), (0xfb00, 0xfb06), (0xfb13, 0xfb17), (0xfb1d, 0xfb36), (0xfb38, 0xfb3c),
   (0xfb3e, 0xfb3e), (0xfb40, 0xfb41), (0xfb43, 0xfb44), (0xfb46, 0xfbc2), (0xfbd3, 0xfd8f),
   (0xfd92, 0xfdc7), (0xfdcf, 0xfdcf), (0xfdf0, 0xfe19), (0xfe20, 0xfe52), (0xfe54, 0xfe66),
   (0xfe68, 0xfe6b), (0xfe70, 0xfe74), (0xfe76, 0xfefc), (0xff01, 0xffbe), (0xffc2, 0xffc7),
   (0xffca, 0xffcf), (0xffd2, 0xffd7), (0xffda, 0xffdc), (0xffe0, 0xffe6), (0xffe8, 0xffee),
   (0xfffc, 0xfffd), (0x10000, 0x1000b), (0x1000d, 0x10026), (0x10028, 0x1003a),
   (0x1003c, 0x1003d), (0x1003f, 0x1004d), (0x10050, 0x1005d), (0x10080, 0x100fa),
   (0x10100, 0x10102), (0x10107, 0x10133), (0x10137, 0x1018e), (0x10190, 0x1019c),
   (0x101a0, 0x101a0), (0x101d0, 0x101fd), (0x10280, 0x1029c), (0x102a0, 0x102d0),
   (0x102e0, 0x102fb), (0x10300, 0x10323), (0x1032d, 0x1034a), (0x10350, 0x1037a),
   (0x10380, 0x1039d), (0x1039f, 0x103c3), (0x103c8, 0x103d5), (0x10400, 0x1049d),
   (0x104a0, 0x104a9), (0x104b0, 0x104d3), (0x104d8, 0x104fb), (0x10500, 0x10527),
   (0x10530, 0x10563), (0x1056f, 0x1057a), (0x1057c, 0x1058a), (0x1058c, 0x10592),
   (0x10594, 0x10595), (0x10597, 0x105a1), (0x105a3, 0x105b1), (0x105b3, 0x105b9),
   (0x105bb, 0x105bc), (0x10600, 0x10736), (0x10740, 0x10755), (0x10760, 0x10767),
   (0x10780, 0x10785), (0x10787, 0x107b0), (0x107b2, 0x107ba), (0x10800, 0x10805),
   (0x10808, 0x10808), (0x1080a, 0x10835), (0x10837, 0x10838), (0x1083c, 0x1083c),
   (0x1083f, 0x10855), (0x10857, 0x1089e), (0x108a7, 0x108af), (0x108e0, 0x108f2),
   (0x108f4, 0x108f5), (0x108fb, 0x1091b), (0x1091f, 0x10939), (0x1093f, 0x1093f),
   (0x10980, 0x109b7), (0x109bc, 0x109cf), (0x109d2, 0x10a03), (0x10a05, 0x10a06),
   (0x10a0c, 0x10a13), (0x10a15, 0x10a17), (0x10a19, 0x10a35), (0x10a38, 0x10a3a),
   (0x10a3f, 0x10a48), (0x10a50, 0x10a58), (0x10a60, 0x10a9f), (0x10ac0, 0x10ae6),
   (0x10aeb, 0x10af6), (0x10b00, 0x10b35), (0x10b39, 0x10b55), (0x10b58, 0x10b72),
   (0x10b78, 0x10b91), (0x10b99, 0x10b9c), (0x10ba9, 0x10baf), (0x10c00, 0x10c48),
   (0x10c80, 0x10cb2), (0x10cc0, 0x10cf2), (0x10cfa, 0x10d27), (0x10d30, 0x10d39),
   (0x10e60, 0x10e7e), (0x10e80, 0x10ea9), (0x10eab, 0x10ead), (0x10eb0, 0x10eb1),
   (0x10f00, 0x10f27), (0x10f30, 0x10f59), (0x10f70, 0x10f89), (0x10fb0, 0x10fcb),
   (0x10fe0, 0x10ff6), (0x11000, 0x1104d), (0x11052, 0x11075), (0x1107f, 0x110bc),
   (0x110be, 0x110c2), (0x110d0, 0x110e8), (0x110f0, 0x110f9), (0x11100, 0x11134),
   (0x11136, 0x11147), (0x11150, 0x11176), (0x11180, 0x111df), (0x111e1, 0x111f4),
   (0x11200, 0x11211), (0x11213, 0x1123e), (0x11280, 0x11286), (0x11288, 0x11288),
   (0x1128a, 0x1128d), (0x1128f, 0x1129d), (0x1129f, 0x112a9), (0x112b0, 0x112ea),
   (0x112f0, 0x112f9), (0x11300, 0x11303), (0x11305, 0x1130c), (0x1130f, 0x11310),
   (0x11313, 0x11328), (0x1132a, 0x11330), (0x11332, 0x11333), (0x11335, 0x11339),
   (0x1133b, 0x11344), (0x11347, 0x11348), (0x1134b, 0x1134d), (0x11350, 0x11350),
   (0x11357, 0x11357), (0x1135d, 0x11363), (0x11366, 0x1136c), (0x11370, 0x11374),
   (0x11400, 0x1145b), (0x1145d, 0x11461), (0x11480, 0x114c7), (0x114d0, 0x114d9),
   (0x11580, 0x115b5), (0x115b8, 0x115dd), (0x11600, 0x11644), (0x11650, 0x11659),
   (0x11660, 0x1166c), (0x11680, 0x116b9), (0x116c0, 0x116c9), (0x11700, 0x1171a),
   (0x1171d, 0x1172b), (0x11730, 0x11746), (0x11800, 0x1183b), (0x118a0, 0x118f2),
   (0x118ff, 0x11906), (0x11909, 0x11909), (0x1190c, 0x11913), (0x11915, 0x11916),
   (0x11918, 0x11935), (0x11937, 0x11938), (0x1193b, 0x11946), (0x11950, 0x11959),
   (0x119a0, 0x119a7), (0x119aa, 0x119d7), (0x119da, 0x119e4), (0x11a00, 0x11a47),
   (0x11a50, 0x11aa2), (0x11ab0, 0x11af8), (0x11c00, 0x11c08), (0x11c0a, 0x11c36),
   (0x11c38, 0x11c45), (0x11c50, 0x11c6c), (0x11c70, 0x11c8f), (0x11c92, 0x11ca7),
   (0x11ca9, 0x11cb6), (0x11d00, 0x11d06), (0x11d08, 0x11d09), (0x11d0b, 0x11d36),
   (0x11d3a, 0x11d3a), (0x11d3c, 0x11d3d), (0x11d3f, 0x11d47), (0x11d50, 0x11d59),
   (0x11d60, 0x11d65), (0x11d67, 0x11d68), (0x11d6a, 0x11d8e), (0x11d90, 0x11d91),
   (0x11d93, 0x11d98), (0x11da0, 0x11da9), (0x11ee0, 0x11ef8), (0x11fb0, 0x11fb0),
   (0x11fc0, 0x11ff1), (0x11fff, 0x12399), (0x12400, 0x1246e), (0x12470, 0x12474),
   (0x12480, 0x12543), (0x12f90, 0x12ff2), (0x13000, 0x1342e), (0x14400, 0x14646),
   (0x16800, 0x16a38), (0x16a40, 0x16a5e), (0x16a60, 0x16a69), (0x16a6e, 0x16abe),
   (0x16ac0, 0x16ac9), (0x16ad0, 0x16aed), (0x16af0, 0x16af5), (0x16b00, 0x16b45),
   (0x16b50, 0x16b59), (0x16b5b, 0x16b61), (0x16b63, 0x16b77), (0x16b7d, 0x16b8f),
   (0x16e40, 0x16e9a), (0x16f00, 0x16f4a), (0x16f4f, 0x16f87), (0x16f8f, 0x16f9f),
   (0x16fe0, 0x16fe4), (0x16ff0, 0x16ff1), (0x17000, 0x187f7), (0x18800, 0x18cd5),
   (0x18d00, 0x18d08), (0x1aff0, 0x1aff3), (0x1aff5, 0x1affb), (0x1affd, 0x1affe),
   (0x1b000, 0x1b122), (0x1b150, 0x1b152), (0x1b164, 0x1b167), (0x1b170, 0x1b2fb),
   (0x1bc00, 0x1bc6a), (0x1bc70, 0x1bc7c), (0x1bc80, 0x1bc88), (0x1bc90, 0x1bc99),
   (0x1bc9c, 0x1bc9f), (0x1cf00, 0x1cf2d), (0x1cf30, 0x1cf46), (0x1cf50, 0x1cfc3),
   (0x1d000, 0x1d0f5), (0x1d100, 0x1d126), (0x1d129, 0x1d172), (0x1d17b, 0x1d1ea),
   (0x1d200, 0x1d245), (0x1d2e0, 0x1d2f3), (0x1d300, 0x1d356), (0x1d360, 0x1d378),
   (0x1d400, 0x1d454), (0x1d456, 0x1d49c), (0x1d49e, 0x1d49f), (0x1d4a2, 0x1d4a2),
   (0x1d4a5, 0x1d4a6), (0x1d4a9, 0x1d4ac), (0x1d4ae, 0x1d4b9), (0x1d4bb, 0x1d4bb),
   (0x1d4bd, 0x1d4c3), (0x1d4c5, 0x1d505), (0x1d507, 0x1d50a), (0x1d50d, 0x1d514),
   (0x1d516, 0x1d51c), (0x1d51e, 0x1d539), (0x1d53b, 0x1d53e), (0x1d540, 0x1d544),
   (0x1d546, 0x1d546), (0x1d54a, 0x1d550), (0x1d552, 0x1d6a5), (0x1d6a8, 0x1d7cb),
   (0x1d7ce, 0x1da8b), (0x1da9b, 0x1da9f), (0x1daa1, 0x1daaf), (0x1df00, 0x1df1e),
   (0x1e000, 0x1e006), (0x1e008, 0x1e018), (0x1e01b, 0x1e021), (0x1e023, 0x1e024),
   (0x1e026, 0x1e02a), (0x1e100, 0x1e12c), (0x1e130, 0x1e13d), (0x1e140, 0x1e149),
   (0x1e14e, 0x1e14f), (0x1e290, 0x1e2ae), (0x1e2c0, 0x1e2f9), (0x1e2ff, 0x1e2ff),
   (0x1e7e0, 0x1e7e6), (0x1e7e8, 0x1e7eb), (0x1e7ed, 0x1e7ee), (0x1e7f0, 0x1e7fe),
   (0x1e800, 0x1e8c4), (0x1e8c7, 0x1e8d6), (0x1e900, 0x1e94b), (0x1e950, 0x1e959),
   (0x1e95e, 0x1e95f), (0x1ec71, 0x1ecb4), (0x1ed01, 0x1ed3d), (0x1ee00, 0x1ee03),
   (0x1ee05, 0x1ee1f), (0x1ee21, 0x1ee22), (0x1ee24, 0x1ee24), (0x1ee27, 0x1ee27),
   (0x1ee29, 0x1ee32), (0x1ee34, 0x1ee37), (0x1ee39, 0x1ee39), (0x1ee3b, 0x1ee3b),
   (0x1ee42, 0x1ee42), (0x1ee47, 0x1ee47), (0x1ee49, 0x1ee49), (0x1ee4b, 0x1ee4b),
   (0x1ee4d, 0x1ee4f), (0x1ee51, 0x1ee52), (0x1ee54, 0x1ee54), (0x1ee57, 0x1ee57),
   (0x1ee59, 0x1ee59), (0x1ee5b, 0x1ee5b), (0x1ee5d, 0x1ee5d), (0x1ee5f, 0x1ee5f),
   (0x1ee61, 0x1ee62), (0x1ee64, 0x1ee64), (0x1ee67, 0x1ee6a), (0x1ee6c, 0x1ee72),
   (0x1ee74, 0x1ee77), (0x1ee79, 0x1ee7c), (0x1ee7e, 0x1ee7e), (0x1ee80, 0x1ee89),
   (0x1ee8b, 0x1ee9b), (0x1eea1, 0x1eea3), (0x1eea5, 0x1eea9), (0x1eeab, 0x1eebb),
   (0x1eef0, 0x1eef1), (0x1f000, 0x1f02b), (0x1f030, 0x1f093), (0x1f0a0, 0x1f0ae),
   (0x1f0b1, 0x1f0bf), (0x1f0c1, 0x1f0cf), (0x1f0d1, 0x1f0f5), (0x1f100, 0x1f1ad),
   (0x1f1e6, 0x1f202), (0x1f210, 0x1f23b), (0x1f240, 0x1f248), (0x1f250, 0x1f251),
   (0x1f260, 0x1f265), (0x1f300, 0x1f6d7), (0x1f6dd, 0x1f6ec), (0x1f6f0, 0x1f6fc),
   (0x1f700, 0x1f773), (0x1f780, 0x1f7d8), (0x1f7e0, 0x1f7eb), (0x1f7f0, 0x1f7f0),
   (0x1f800, 0x1f80b), (0x1f810, 0x1f847), (0x1f850, 0x1f859), (0x1f860, 0x1f887),
   (0x1f890, 0x1f8ad), (0x1f8b0, 0x1f8b1), (0x1f900, 0x1fa53), (0x1fa60, 0x1fa6d),
   (0x1fa70, 0x1fa74), (0x1fa78, 0x1fa7c), (0x1fa80, 0x1fa86), (0x1fa90, 0x1faac),
   (0x1fab0, 0x1faba), (0x1fac0, 0x1fac5), (0x1fad0, 0x1fad9), (0x1fae0, 0x1fae7),
   (0x1faf0, 0x1faf6), (0x1fb00, 0x1fb92), (0x1fb94, 0x1fbca), (0x1fbf0, 0x1fbf9),
   (0x20000, 0x2a6df), (0x2a700, 0x2b738), (0x2b740, 0x2b81d), (0x2b820, 0x2cea1),
   (0x2ceb0, 0x2ebe0), (0x2f800, 0x2fa1d), (0x30000, 0x3134a), (0xe0100, 0xe01ef)]

/-- Model of Go unicode.IsPrint: printable means the categories L, M, N,
P and S plus the ASCII space.  Below U+0100 this is Go's Latin-1
properties fast path (ASCII space and 0x21-0x7E printable, the C0 and C1
controls, 0xA0 and the soft hyphen 0xAD not, the rest of Latin-1
printable); above it membership in the merged category ranges. -/
def goIsPrint (c : Char) : Bool :=
  let n := c.toNat
  if n < 0x80 then 0x20 ≤ n && n ≤ 0x7E
  else if n ≤ 0xA0 then false
  else if n == 0xAD then false
  else if n ≤ 0xFF then true
  else printRanges.any (fun r => r.1 ≤ n && n ≤ r.2)

/-! ### Quoting (model of strconv.AppendQuote) and its inverse -/

/-- Lowercase hexadecimal digit character, as used by strconv. -/
def hexDigitChar (d : Nat) : Char :=
  if d < 10 then Char.ofNat ('0'.toNat + d) else Char.ofNat ('a'.toNat + d - 10)

/-- Fixed-width big-endian lowercase hexadecimal rendering. -/
def hexDigits : Nat → Nat → List Char
  | 0, _ => []
  | w + 1, n => hexDigitChar (n / 16 ^ w % 16) :: hexDigits w n

/-- Value of one hexadecimal digit character. -/
def hexVal (c : Char) : Option Nat :=
  if '0' ≤ c ∧ c ≤ '9' then some (c.toNat - '0'.toNat)
  else if 'a' ≤ c ∧ c ≤ 'f' then some (c.toNat - 'a'.toNat + 10)
  else if 'A' ≤ c ∧ c ≤ 'F' then some (c.toNat - 'A'.toNat + 10)
  else none

/-- Read exactly w hexadecimal digits from the front of the input,
folding them onto the accumulator; returns the value and the rest. -/
def readHex : Nat → Nat → List Char → Option (Nat × List Char)
  | 0, acc, l => some (acc, l)
  | _ + 1, _, [] => none
  | w + 1, acc, c :: l =>
    match hexVal c with
    | some d => readHex w (acc * 16 + d) l
    | none => none

/-- Escaped form of one character inside a double-quoted literal,
following the appendEscapedRune step of strconv.AppendQuote. -/
def quoteChar (c : Char) : List Char :=
  if c = '"' ∨ c = '\\' then ['\\', c]
  else if goIsPrint c then [c]
  else if c = '\x07' then ['\\', 'a']
  else if c = '\x08' then ['\\', 'b']
  else if c = '\x0c' then ['\\', 'f']
  else if c = '\n' then ['\\', 'n']
  else if c = '\r' then ['\\', 'r']
  else if c = '\t' then ['\\', 't']
  else if c = '\x0b' then ['\\', 'v']
  else if c.toNat < 0x20 ∨ c.toNat = 0x7F then '\\' :: 'x' :: hexDigits 2 c.toNat
  else if c.toNat < 0x10000 then '\\' :: 'u' :: hexDigits 4 c.toNat
  else '\\' :: 'U' :: hexDigits 8 c.toNat

/-- Escaped body of a double-quoted literal: every character escaped in
sequence. -/
def quoteBody : List Char → List Char
  | [] => []
  | c :: cs => quoteChar c ++ quoteBody cs

/-- Model of strconv.AppendQuote: the quoted, escaped form of s. -/
def goQuote (s : String) : String :=
  String.mk ('"' :: quoteBody s.data ++ ['"'])

/-- Unicode scalar value to character, guarded: rejects surrogate and
out-of-range code points. -/
def charFromCode (n : Nat) : Option Char :=
  if n < 0xD800 ∨ (0xDFFF < n ∧ n < 0x110000) then some (Char.ofNat n) else none

/-- Decode one escape sequence (the part after the backslash) of the
double-quoted escape syntax; yields the character and remaining input. -/
def readEscape : List Char → Option (Char × List Char)
  | [] => none
  | e :: r =>
    if e = 'a' then some ('\x07', r)
    else if e = 'b' then some ('\x08', r)
    else if e = 'f' then some ('\x0c', r)
    else if e = 'n' then some ('\n', r)
    else if e = 'r' then some ('\r', r)
    else if e = 't' then some ('\t', r)
    else if e = 'v' then some ('\x0b', r)
    else if e = '\\' then some ('\\', r)
    else if e = '"' then some ('"', r)
    else if e = 'x' then
      (readHex 2 0 r).bind fun p => (charFromCode p.1).map fun c => (c, p.2)
    else if e = 'u' then
      (readHex 4 0 r).bind fun p => (charFromCode p.1).map fun c => (c, p.2)
    else if e = 'U' then
      (readHex 8 0 r).bind fun p => (charFromCode p.1).map fun c => (c, p.2)
    else none

theorem readHex_length : ∀ w acc l p, readHex w acc l = some p → p.2.length ≤ l.length := by
  intro w
  induction w with
  | zero =>
    intro acc l p h
    simp only [readHex, Option.some.injEq] at h
    subst h
    exact Nat.le_refl _
  | succ w ih =>
    intro acc l p h
    match l with
    | [] => simp [readHex] at h
    | c :: l' =>
      simp only [readHex] at h
      match hv : hexVal c with
      | some d =>
        rw [hv] at h
        have := ih (acc * 16 + d) l' p h
        simp only [List.length_cons]
        omega
      | none => rw [hv] at h; exact absurd h (by simp)

theorem hexEscape_length {w : Nat} {r : List Char} {c0 : Char} {r0 : List Char}
    (h : ((readHex w 0 r).bind fun q => (charFromCode q.1).map fun c => (c, q.2)) =
      some (c0, r0)) : r0.length ≤ r.length := by
  obtain ⟨q, hq, hmap⟩ := Option.bind_eq_some.mp h
  obtain ⟨c, _, hp⟩ := Option.map_eq_some'.mp hmap
  have hle := readHex_length w 0 r q hq
  cases hp
  exact hle

set_option maxHeartbeats 1000000 in
theorem readEscape_length {l : List Char} {p : Char × List Char}
    (h : readEscape l = some p) : p.2.length < l.length := by
  obtain ⟨c0, r0⟩ := p
  match l with
  | [] => simp [readEscape] at h
  | e :: r =>
    simp only [readEscape] at h
    by_cases h1 : e = 'a'
    · rw [if_pos h1] at h; cases Option.some.inj h; simp only [List.length_cons]; omega
    rw [if_neg h1] at h
    by_cases h2 : e = 'b'
    · rw [if_pos h2] at h; cases Option.some.inj h; simp only [List.length_cons]; omega
    rw [if_neg h2] at h
    by_cases h3 : e = 'f'
    · rw [if_pos h3] at h; cases Option.some.inj h; simp only [List.length_cons]; omega
    rw [if_neg h3] at h
    by_cases h4 : e = 'n'
    · rw [if_pos h4] at h; cases Option.some.inj h; simp only [List.length_cons]; omega
    rw [if_neg h4] at h
    by_cases h5 : e = 'r'
    · rw [if_pos h5] at h; cases Option.some.inj h; simp only [List.length_cons]; omega
    rw [if_neg h5] at h
    by_cases h6 : e = 't'
    · rw [if_pos h6] at h; cases Option.some.inj h; simp only [List.length_cons]; omega
    rw [if_neg h6] at h
    by_cases h7 : e = 'v'
    · rw [if_pos h7] at h; cases Option.some.inj h; simp only [List.length_cons]; omega
    rw [if_neg h7] at h
    by_cases h8 : e = '\\'
    · rw [if_pos h8] at h; cases Option.some.inj h; simp only [List.length_cons]; omega
    rw [if_neg h8] at h
    by_cases h9 : e = '"'
    · rw [if_pos h9] at h; cases Option.some.inj h; simp only [List.length_cons]; omega
    rw [if_neg h9] at h
    by_cases hx : e = 'x'
    · rw [if_pos hx] at h
      have := hexEscape_length h; simp only [List.length_cons]; omega
    rw [if_neg hx] at h
    by_cases hu : e = 'u'
    · rw [if_pos hu] at h
      have := hexEscape_length h; simp only [List.length_cons]; omega
    rw [if_neg hu] at h
    by_cases hU : e = 'U'
    · rw [if_pos hU] at h
      have := hexEscape_length h; simp only [List.length_cons]; omega
    rw [if_neg hU] at h
    exact absurd h (by simp)

/-- Inverse of the escape syntax on the body of a double-quoted literal.
An unescaped quote character inside the body is rejected. -/
def unquoteBody : List Char → Option (List Char)
  | [] => some []
  | c :: cs =>
    if c = '\\' then
      match hh : readEscape cs with
      | some p => (unquoteBody p.2).map (p.1 :: ·)
      | none => none
    else if c = '"' then none
    else (unquoteBody cs).map (c :: ·)
termination_by l => l.length
decreasing_by
  · have := readEscape_length hh; simp; omega
  · simp

/-- Model of strconv.Unquote restricted to double-quoted literals:
strips the surrounding quotes and decodes every escape. -/
def goUnquoteList (l : List Char) : Option (List Char) :=
  match l with
  | '"' :: rest =>
    if rest.getLast? = some '"' then unquoteBody rest.dropLast else none
  | _ => none

/-- String-level inverse of goQuote. -/
def goUnquote (s : String) : Option String :=
  (goUnquoteList s.data).map String.mk

/-! ### needsQuoting and appendString (src/handler.go lines 420-440) -/

/-- Model of needsQuoting: true if the string is empty or contains any
Unicode whitespace, the quote character, the separator, or a
non-printable character. -/
def needsQuoting (s : String) : Bool :=
  s.data.isEmpty ||
  s.data.any (fun r => goIsSpace r || r == '"' || r == '=' || !goIsPrint r)

/-- Model of appendString: quote when requested and needed, otherwise
the raw text. -/
def appendString (s : String) (quote : Bool) : String :=
  if quote && needsQuoting s then goQuote s else s

/-! ### Time values (model of Go time.Time, wall clock in UTC) -/

/-- Model of a Go time.Time wall-clock reading in UTC.  The monotonic
reading (which Round(0) strips in Handle before the rewrite callback
sees the value) is not part of the model. -/
structure GoTime where
  year : Nat
  month : Nat
  day : Nat
  hour : Nat
  minute : Nat
  second : Nat
  nanos : Nat

/-- Left-pad a character list to the given width. -/
def padLeft (w : Nat) (pad : Char) (s : List Char) : List Char :=
  List.replicate (w - s.length) pad ++ s

/-- Two-digit zero-padded decimal. -/
def pad2 (n : Nat) : List Char := padLeft 2 '0' (natDigits n)

/-- Two-digit space-padded decimal (the _2 layout token). -/
def padSp2 (n : Nat) : List Char := padLeft 2 ' ' (natDigits n)

/-- Month abbreviations used by Go reference layouts. -/
def monthNames : List String :=
  ["Jan", "Feb", "Mar", "Apr", "May", "Jun", "Jul", "Aug", "Sep", "Oct", "Nov", "Dec"]

/-- Abbreviated month name; months count from 1. -/
def monthName (m : Nat) : String := monthNames.getD (m - 1) "???"

/-- Drop trailing zero characters. -/
def trimRightZeros (cs : List Char) : List Char :=
  (cs.reverse.dropWhile (· = '0')).reverse

/-- Fractional-second part of Go Time.String(): nine digits with
trailing zeros removed, empty (with no dot) when the nanoseconds are
zero. -/
def goTimeFrac (nanos : Nat) : List Char :=
  if nanos = 0 then []
  else '.' :: trimRightZeros (padLeft 9 '0' (natDigits nanos))

/-- Model of Go Time.String(): the fixed layout
2006-01-02 15:04:05.999999999 -0700 MST, for a UTC wall-clock time. -/
def goTimeString (t : GoTime) : String :=
  String.mk (padLeft 4 '0' (natDigits t.year) ++ ['-'] ++ pad2 t.month ++
    ['-'] ++ pad2 t.day ++ [' '] ++ pad2 t.hour ++ [':'] ++ pad2 t.minute ++
    [':'] ++ pad2 t.second ++ goTimeFrac t.nanos) ++ " +0000 UTC"

/-- Model of Go layout formatting (Time.AppendFormat), restricted to the
reference-layout tokens the handler's defaults use (time.StampMilli is
the layout Jan _2 15:04:05.000, and the other numeric and fractional
tokens are included); characters outside these tokens are copied
verbatim. -/
def goFormatAux (t : GoTime) : List Char → List Char
  | [] => []
  | '2' :: '0' :: '0' :: '6' :: rest =>
    padLeft 4 '0' (natDigits t.year) ++ goFormatAux t rest
  | 'J' :: 'a' :: 'n' :: rest => (monthName t.month).data ++ goFormatAux t rest
  | '0' :: '1' :: rest => pad2 t.month ++ goFormatAux t rest
  | '0' :: '2' :: rest => pad2 t.day ++ goFormatAux t rest
  | '_' :: '2' :: rest => padSp2 t.day ++ goFormatAux t rest
  | '1' :: '5' :: rest => pad2 t.hour ++ goFormatAux t rest
  | '0' :: '4' :: rest => pad2 t.minute ++ goFormatAux t rest
  | '0' :: '5' :: rest => pad2 t.second ++ goFormatAux t rest
  | '.' :: '0' :: '0' :: '0' :: '0' :: '0' :: '0' :: '0' :: '0' :: '0' :: rest =>
    '.' :: padLeft 9 '0' (natDigits t.nanos) ++ goFormatAux t rest
  | '.' :: '0' :: '0' :: '0' :: '0' :: '0' :: '0' :: rest =>
    '.' :: padLeft 6 '0' (natDigits (t.nanos / 1000)) ++ goFormatAux t rest
  | '.' :: '0' :: '0' :: '0' :: rest =>
    '.' :: padLeft 3 '0' (natDigits (t.nanos / 1000000)) ++ goFormatAux t rest
  | c :: rest => c :: goFormatAux t rest

/-- String-level layout formatting. -/
def goFormat (t : GoTime) (layout : String) : String :=
  String.mk (goFormatAux t layout.data)

/-! ### ANSI modes (src/handler.go lines 70-79) -/

def ansiReset : String := "\x1b[0m"
def ansiFaint : String := "\x1b[2m"
def ansiBrightMagentaFaint : String := "\x1b[95;2m"
def ansiResetFaint : String := "\x1b[22m"
def ansiBrightRed : String := "\x1b[91m"
def ansiBrightRedFaint : String := "\x1b[91;2m"
def ansiBrightGreen : String := "\x1b[92m"
def ansiBrightYellow : String := "\x1b[93m"

/-! ### Levels and reserved keys (log/slog constants) -/

def levelDebug : Int := -4
def levelInfo : Int := 0
def levelWarn : Int := 4
def levelError : Int := 8

def timeKey : String := "time"
def levelKey : String := "level"
def messageKey : String := "msg"
def sourceKey : String := "source"

/-! ### Values and attributes (model of slog.Value / slog.Attr) -/

/-- Model of slog.Source (the resolved call frame). -/
structure Source where
  function : String
  file : String
  line : Nat

mutual

/-- Model of slog.Value.  The KindAny constructors are split by the
runtime capability the handler dispatches on (error, slog.Level,
encoding.TextMarshaler, slog.Source pointer, nil, anything else); the
source checks these in a fixed order and each model constructor is one
disjoint outcome of that dispatch.  Payloads that Go produces through
the runtime carry their rendered text: float64 carries the strconv
shortest 'g' rendering, duration carries Duration.String(),
anyTextMarshaler carries MarshalText's result (none models a marshaling
error), anyOther carries the deterministic fmt %+v dump.  lazy models a
KindLogValuer value. -/
inductive Value where
  | str (s : String)
  | int64 (i : Int)
  | uint64 (n : Nat)
  | float64 (gRepr : String)
  | bool (b : Bool)
  | duration (dRepr : String)
  | time (t : GoTime)
  | group (attrs : List Attr)
  | anyError (msg : String)
  | anyLevel (l : Int)
  | anyTextMarshaler (marshaled : Option String)
  | anySource (src : Source)
  | anyNil
  | anyOther (vRepr : String)
  | lazy (inner : Value)

/-- Model of slog.Attr: a key and a value. -/
inductive Attr where
  | mk (key : String) (value : Value)

end

def Attr.key : Attr → String
  | .mk k _ => k

def Attr.value : Attr → Value
  | .mk _ v => v

/-- Model of slog.Kind. -/
inductive ValueKind where
  | string
  | int64
  | uint64
  | float64
  | bool
  | duration
  | time
  | group
  | any
  | logValuer
deriving DecidableEq

def Value.kind : Value → ValueKind
  | .str _ => .string
  | .int64 _ => .int64
  | .uint64 _ => .uint64
  | .float64 _ => .float64
  | .bool _ => .bool
  | .duration _ => .duration
  | .time _ => .time
  | .group _ => .group
  | .lazy _ => .logValuer
  | _ => .any

/-- Model of Value.Resolve: unwraps LogValuer indirections, the identity
on every other kind.  Resolution is idempotent. -/
def Value.resolve : Value → Value
  | .lazy v => v.resolve
  | v => v

/-- Model of Value.Time() on a value guarded by Kind() == KindTime. -/
def Value.timeVal : Value → GoTime
  | .time t => t
  | _ => ⟨0, 0, 0, 0, 0, 0, 0⟩

/-- Model of attr.Equal(Attr zero value): the zero Attr has an empty
key and the zero Value, whose kind is Any with a nil payload. -/
def Attr.isEmptySentinel (a : Attr) : Bool :=
  (match a.value with
    | .anyNil => true
    | _ => false) && a.key == ""

/-! ### Handler state (src/handler.go lines 132-161) -/

/-- Model of the handler struct.  The writer and its mutex are outside
the model: handle returns the bytes written.  level models
h.level.Level(). -/
structure Handler where
  attrsPrefix : String
  groupPrefix : String
  groups : List String
  addSource : Bool
  level : Int
  replaceAttr : Option (List String → Attr → Attr)
  timeFormat : String
  noColor : Bool

/-- time.StampMilli, the default time format. -/
def defaultTimeFormat : String := "Jan _2 15:04:05.000"

/-- slog.LevelInfo, the default minimum level. -/
def defaultLevel : Int := 0

/-- Model of NewHandler with nil options. -/
def defaultHandler : Handler :=
  { attrsPrefix := ""
    groupPrefix := ""
    groups := []
    addSource := false
    level := defaultLevel
    replaceAttr := none
    timeFormat := defaultTimeFormat
    noColor := false }

/-- Default handler with the colour flag chosen. -/
def mkHandler (noColor : Bool) : Handler := { defaultHandler with noColor := noColor }

/-- Model of Enabled: level at or above the configured minimum. -/
def Handler.enabled (h : Handler) (level : Int) : Bool := h.level ≤ level

/-! ### Rendering (src/handler.go lines 283-440) -/

/-- Model of buffer.WriteStringIf: the string when the condition holds,
nothing otherwise. -/
def writeStringIf (ok : Bool) (s : String) : String := if ok then s else ""

/-- Model of appendTime: faint colour, the record time in the handler's
configured format. -/
def Handler.appendTime (h : Handler) (t : GoTime) : String :=
  writeStringIf (!h.noColor) ansiFaint ++ goFormat t h.timeFormat ++
    writeStringIf (!h.noColor) ansiReset

/-- Model of appendLevelDelta: nothing for zero, a leading plus sign for
positive, the decimal rendering of the delta. -/
def appendLevelDelta (delta : Int) : String :=
  if delta = 0 then ""
  else (if delta > 0 then "+" else "") ++ intToDec delta

/-- Model of appendLevel: bucket by half-open ranges, a colour per
bucket, the three-letter label, the delta against the bucket's base
level. -/
def Handler.appendLevel (h : Handler) (level : Int) : String :=
  if level < levelInfo then
    writeStringIf (!h.noColor) ansiBrightMagentaFaint ++ "DBG" ++
      appendLevelDelta (level - levelDebug) ++ writeStringIf (!h.noColor) ansiReset
  else if level < levelWarn then
    writeStringIf (!h.noColor) ansiBrightGreen ++ "INF" ++
      appendLevelDelta (level - levelInfo) ++ writeStringIf (!h.noColor) ansiReset
  else if level < levelError then
    writeStringIf (!h.noColor) ansiBrightYellow ++ "WRN" ++
      appendLevelDelta (level - levelWarn) ++ writeStringIf (!h.noColor) ansiReset
  else
    writeStringIf (!h.noColor) ansiBrightRed ++ "ERR" ++
      appendLevelDelta (level - levelError) ++ writeStringIf (!h.noColor) ansiReset

/-- Model of path/filepath.Base for slash-separated paths. -/
def filepathBase (p : String) : String :=
  if p = "" then "."
  else
    let cs := p.data.reverse.dropWhile (· = '/')
    if cs = [] then "/"
    else String.mk (cs.takeWhile (· ≠ '/')).reverse

/-- File part of filepath.Split: everything after the final slash. -/
def filepathSplitFile (p : String) : String :=
  String.mk (p.data.reverse.takeWhile (· ≠ '/')).reverse

/-- Directory part of filepath.Split: everything up to and including the
final slash. -/
def filepathSplitDir (p : String) : String :=
  String.mk (p.data.take (p.data.length - (p.data.reverse.takeWhile (· ≠ '/')).length))

/-- Model of filepath.Join on two elements, for paths without redundant
separators (Join also cleans; the handler joins a directory base and a
file name, which need no cleaning). -/
def filepathJoin (a b : String) : String :=
  if a = "" then b else if b = "" then a else a ++ "/" ++ b

/-- Model of appendSource: base directory, file name, line, in faint
colour. -/
def Handler.appendSource (h : Handler) (src : Source) : String :=
  writeStringIf (!h.noColor) ansiFaint ++
    filepathJoin (filepathBase (filepathSplitDir src.file)) (filepathSplitFile src.file) ++
    ":" ++ natToDec src.line ++ writeStringIf (!h.noColor) ansiReset

/-- Model of appendKey: faint colour, the dotted group path and the key
quoted as one string, the separator. -/
def Handler.appendKey (h : Handler) (key groups : String) : String :=
  writeStringIf (!h.noColor) ansiFaint ++ appendString (groups ++ key) true ++ "=" ++
    writeStringIf (!h.noColor) ansiReset

/-- Model of appendError: the error colour pair around key and
message. -/
def Handler.appendError (h : Handler) (errMsg attrKey groupsPfx : String) : String :=
  writeStringIf (!h.noColor) ansiBrightRedFaint ++
    appendString (groupsPfx ++ attrKey) true ++ "=" ++
    writeStringIf (!h.noColor) ansiResetFaint ++ appendString errMsg true ++
    writeStringIf (!h.noColor) ansiReset

/-- Model of appendValue: dispatch on the value kind, and for KindAny on
the runtime capability, in the order of the source's type switch.
KindGroup and KindLogValuer have no case in the switch and append
nothing. -/
def Handler.appendValue (h : Handler) (v : Value) (quote : Bool) : String :=
  match v with
  | .str s => appendString s quote
  | .int64 i => intToDec i
  | .uint64 n => natToDec n
  | .float64 g => g
  | .bool b => if b then "true" else "false"
  | .duration d => appendString d quote
  | .time t => appendString (goTimeString t) quote
  | .group _ => ""
  | .lazy _ => ""
  | .anyLevel l => h.appendLevel l
  | .anyTextMarshaler m =>
    match m with
    | some data => appendString data quote
    | none => ""
  | .anySource src => h.appendSource src
  | .anyError msg => appendString msg quote
  | .anyNil => appendString "<nil>" quote
  | .anyOther r => appendString r quote

/-- First steps of appendAttr: resolve the value, pass non-group
attributes through the rewrite callback, resolve the result again. -/
def Handler.resolveRewrite (h : Handler) (attr : Attr) (groups : List String) : Attr :=
  let v := attr.value.resolve
  match h.replaceAttr with
  | some rep =>
    if v.kind = ValueKind.group then .mk attr.key v
    else
      let a := rep groups (.mk attr.key v)
      .mk a.key a.value.resolve
  | none => .mk attr.key v

/-- Model of appendAttr.  The Go original recurses into group children
without a bound (with a rewrite callback that keeps producing fresh
groups it would not terminate); fuel bounds the group-nesting depth
explicitly, and every theorem below holds for each sufficient fuel. -/
def Handler.appendAttr (h : Handler) (fuel : Nat) (attr : Attr)
    (groupsPfx : String) (groups : List String) : String :=
  let a := h.resolveRewrite attr groups
  if a.isEmptySentinel then ""
  else
    match a.value with
    | .group childAttrs =>
      match fuel with
      | 0 => ""
      | f + 1 =>
        if a.key = "" then
          String.join (childAttrs.map (fun ca => h.appendAttr f ca groupsPfx groups))
        else
          String.join (childAttrs.map (fun ca =>
            h.appendAttr f ca (groupsPfx ++ a.key ++ ".") (groups ++ [a.key])))
    | .anyError msg => h.appendError msg a.key groupsPfx ++ " "
    | _ => h.appendKey a.key groupsPfx ++ h.appendValue a.value true ++ " "

/-- Record attributes in order, each through appendAttr. -/
def Handler.appendAttrList (h : Handler) (fuel : Nat) (attrs : List Attr)
    (groupsPfx : String) (groups : List String) : String :=
  String.join (attrs.map (fun a => h.appendAttr fuel a groupsPfx groups))

/-! ### Records and Handle (src/handler.go lines 169-281) -/

/-- Model of slog.Record.  A none time models the zero time.Time
(r.Time.IsZero); source holds the frame that resolving the PC yields in
Handle, none when no frame is available. -/
structure Record where
  time : Option GoTime
  level : Int
  message : String
  source : Option Source
  attrs : List Attr

/-- Time block of Handle (the write-time step). -/
def Handler.timeSegment (h : Handler) (r : Record) : String :=
  match r.time with
  | none => ""
  | some t =>
    match h.replaceAttr with
    | none => h.appendTime t ++ " "
    | some rep =>
      let a := rep [] (.mk timeKey (.time t))
      if a.key = "" then ""
      else if a.value.kind = ValueKind.time then h.appendTime a.value.timeVal ++ " "
      else h.appendValue a.value false ++ " "

/-- Level block of Handle. -/
def Handler.levelSegment (h : Handler) (r : Record) : String :=
  match h.replaceAttr with
  | none => h.appendLevel r.level ++ " "
  | some rep =>
    let a := rep [] (.mk levelKey (.anyLevel r.level))
    if a.key = "" then "" else h.appendValue a.value false ++ " "

/-- Source block of Handle. -/
def Handler.sourceSegment (h : Handler) (r : Record) : String :=
  if h.addSource then
    match r.source with
    | some src =>
      if src.file = "" then ""
      else
        match h.replaceAttr with
        | none => h.appendSource src ++ " "
        | some rep =>
          let a := rep [] (.mk sourceKey (.anySource src))
          if a.key = "" then "" else h.appendValue a.value false ++ " "
    | none => ""
  else ""

/-- Message block of Handle: with no rewrite callback the message is
written verbatim. -/
def Handler.messageSegment (h : Handler) (r : Record) : String :=
  match h.replaceAttr with
  | none => r.message ++ " "
  | some rep =>
    let a := rep [] (.mk messageKey (.str r.message))
    if a.key = "" then "" else h.appendValue a.value false ++ " "

/-- Model of the finalization step: the final byte of the buffer (always
a single-byte trailing separator) is overwritten with a newline. -/
def finalize (buf : String) : String := String.mk (buf.data.dropLast ++ ['\n'])

/-- Model of Handle.  Returns the bytes written to the writer; the empty
string models the early return that writes nothing at all.  Handle's
only error is the writer's own, which is outside this model. -/
def Handler.handle (h : Handler) (fuel : Nat) (r : Record) : String :=
  let buf := h.timeSegment r ++ h.levelSegment r ++ h.sourceSegment r ++
    h.messageSegment r ++ h.attrsPrefix ++
    h.appendAttrList fuel r.attrs h.groupPrefix h.groups
  if buf = "" then "" else finalize buf

/-- Model of WithAttrs: an empty list returns the receiver unchanged,
otherwise the given attributes are rendered through the same flattening
path and appended to the stored text. -/
def Handler.withAttrs (h : Handler) (fuel : Nat) (attrs : List Attr) : Handler :=
  match attrs with
  | [] => h
  | _ =>
    { h with attrsPrefix :=
        h.attrsPrefix ++ h.appendAttrList fuel attrs h.groupPrefix h.groups }

/-- Model of WithGroup: an empty name returns the receiver unchanged,
otherwise the group prefix gains the dotted name and the stack gains the
name. -/
def Handler.withGroup (h : Handler) (name : String) : Handler :=
  if name = "" then h
  else { h with groupPrefix := h.groupPrefix ++ name ++ ".", groups := h.groups ++ [name] }

/-! ### Spec-side definitions (written from the claims, for comparison) -/

/-- Spec reading of the level label: half-open numeric ranges. -/
def levelLabelSpec (lvl : Int) : String :=
  if lvl < levelInfo then "DBG"
  else if lvl < levelWarn then "INF"
  else if lvl < levelError then "WRN"
  else "ERR"

/-- Spec reading of the bucket's reference level. -/
def levelRefSpec (lvl : Int) : Int :=
  if lvl < levelInfo then levelDebug
  else if lvl < levelWarn then levelInfo
  else if lvl < levelError then levelWarn
  else levelError

/-- Spec reading of the delta text: nothing when the level equals the
bucket reference, the signed decimal difference otherwise. -/
def levelDeltaSpec (lvl : Int) : String :=
  if lvl = levelRefSpec lvl then ""
  else (if lvl - levelRefSpec lvl > 0 then "+" else "") ++ intToDec (lvl - levelRefSpec lvl)

/-! ### Occurrence counting and ANSI stripping (for the output claims) -/

/-- Number of positions at which pat occurs in the list. -/
def countOcc (pat : List Char) : List Char → Nat
  | [] => if pat.isPrefixOf [] then 1 else 0
  | c :: rest => (if pat.isPrefixOf (c :: rest) then 1 else 0) + countOcc pat rest

/-- Parameter byte of an ANSI control sequence (the bytes between the
opening ESC [ and the final byte). -/
def isCsiParam (c : Char) : Bool := 0x20 ≤ c.toNat && c.toNat ≤ 0x3F

/-- Delete every ANSI escape sequence (ESC [ parameter bytes and one
final byte); other characters, including a lone ESC, are kept. -/
def stripAnsiAux : List Char → List Char
  | [] => []
  | c :: rest =>
    if c = '\x1b' then
      match rest with
      | '[' :: r2 => stripAnsiAux (List.drop 1 (r2.dropWhile isCsiParam))
      | r3 => c :: stripAnsiAux r3
    else c :: stripAnsiAux rest
termination_by l => l.length
decreasing_by
  · have h1 : (r2.dropWhile isCsiParam).length ≤ r2.length :=
      (List.dropWhile_suffix isCsiParam).length_le
    simp only [List.length_drop, List.length_cons]
    omega
  · simp only [List.length_cons]
    omega
  · simp only [List.length_cons]
    omega

/-- String-level ANSI stripping. -/
def stripAnsi (s : String) : String := String.mk (stripAnsiAux s.data)

/-- No ESC byte occurs in the string (such text is untouched by
stripAnsi). -/
def escFree (s : String) : Bool := s.data.all (fun c => c != '\x1b')

mutual

/-- ESC-freedom of the payloads that the renderer copies verbatim
(float and source paths); quoted strings are escape-clean by
construction, so only these payloads matter. -/
def Value.escClean : Value → Bool
  | .float64 g => escFree g
  | .anySource src => escFree src.file
  | .group attrs => attrsClean attrs
  | .lazy v => v.escClean
  | _ => true

/-- ESC-freedom of every attribute value in the list. -/
def attrsClean : List Attr → Bool
  | [] => true
  | .mk _ v :: rest => v.escClean && attrsClean rest

end

/-- ESC-freedom of the parts of a record that are rendered verbatim. -/
def Record.escClean (r : Record) : Bool :=
  escFree r.message &&
  (match r.source with
   | some src => escFree src.file
   | none => true) &&
  attrsClean r.attrs

/-- Handler used by the C10 demonstration: a with_group("g") handler
whose callback returns p=H at the empty group list and q=A
elsewhere. -/
def c10Handler : Handler :=
  { mkHandler true with
      groups := ["g"]
      groupPrefix := "g."
      replaceAttr := some fun gs _ =>
        if gs = [] then .mk "p" (.str "H") else .mk "q" (.str "A") }

/-- Relation behind the colour-stripping claim: a strips to b in every
right context (so the relation composes under concatenation). -/
def StripRelL (a b : List Char) : Prop :=
  ∀ t : List Char, stripAnsiAux (a ++ t) = b ++ stripAnsiAux t

/-- Segment relation for the colour-stripping claim: a block of
rendered output is either empty in both colour modes or ends in the
separator in both, with its body in the stripping relation. -/
def SegRel (a b : String) : Prop :=
  (a = "" ∧ b = "") ∨
    ∃ a' b' : String, a = a' ++ " " ∧ b = b' ++ " " ∧ StripRelL a'.data b'.data

/-! ## Theorems -/

/-! ### Round-trip of the escape syntax -/

theorem char_toNat_lt (c : Char) : c.toNat < 0x110000 := by
  rcases c.valid with h | ⟨_, h2⟩
  · have h' := @UInt32.toNat_lt_of_lt c.val 0xD800 (by decide) h
    simp only [Char.toNat]
    omega
  · exact UInt32.toNat_lt_of_lt (by decide) h2

theorem charFromCode_toNat (c : Char) : charFromCode c.toNat = some c := by
  have hcond : c.toNat < 0xD800 ∨ (0xDFFF < c.toNat ∧ c.toNat < 0x110000) := by
    rcases c.valid with h | ⟨h1, h2⟩
    · exact Or.inl (UInt32.toNat_lt_of_lt (by decide) h)
    · exact Or.inr ⟨UInt32.lt_toNat_of_lt (by decide) h1,
        UInt32.toNat_lt_of_lt (by decide) h2⟩
  unfold charFromCode
  rw [if_pos hcond, Char.ofNat_toNat]

theorem hexVal_hexDigitChar (d : Nat) (h : d < 16) : hexVal (hexDigitChar d) = some d := by
  interval_cases d <;> rfl

theorem readHex_hexDigits : ∀ w acc n rest,
    readHex w acc (hexDigits w n ++ rest) = some (acc * 16 ^ w + n % 16 ^ w, rest) := by
  intro w
  induction w with
  | zero =>
    intro acc n rest
    simp [hexDigits, readHex, Nat.mod_one]
  | succ w ih =>
    intro acc n rest
    have hd : n / 16 ^ w % 16 < 16 := Nat.mod_lt _ (by omega)
    simp only [hexDigits, List.cons_append, readHex, hexVal_hexDigitChar _ hd,
      List.append_eq]
    rw [ih (acc * 16 + n / 16 ^ w % 16) n rest]
    have harith : (acc * 16 + n / 16 ^ w % 16) * 16 ^ w + n % 16 ^ w =
        acc * 16 ^ (w + 1) + n % 16 ^ (w + 1) := by
      rw [Nat.mod_pow_succ, Nat.pow_succ]
      ring
    rw [harith]

theorem readEscape_x (t : List Char) : readEscape ('x' :: t) =
    (readHex 2 0 t).bind fun p => (charFromCode p.1).map fun c => (c, p.2) := rfl

theorem readEscape_u (t : List Char) : readEscape ('u' :: t) =
    (readHex 4 0 t).bind fun p => (charFromCode p.1).map fun c => (c, p.2) := rfl

theorem readEscape_bigU (t : List Char) : readEscape ('U' :: t) =
    (readHex 8 0 t).bind fun p => (charFromCode p.1).map fun c => (c, p.2) := rfl

theorem unquoteBody_nil : unquoteBody [] = some [] := by
  simp [unquoteBody]

theorem unquoteBody_cons_plain {c : Char} (cs : List Char) (h1 : ¬c = '\\')
    (h2 : ¬c = '"') : unquoteBody (c :: cs) = (unquoteBody cs).map (c :: ·) := by
  rw [unquoteBody, if_neg h1, if_neg h2]

theorem unquoteBody_esc {cs : List Char} {p : Char × List Char}
    (h : readEscape cs = some p) :
    unquoteBody ('\\' :: cs) = (unquoteBody p.2).map (p.1 :: ·) := by
  rw [unquoteBody, if_pos rfl]
  split
  · rename_i q hq
    rw [h] at hq
    cases Option.some.inj hq
    rfl
  · rename_i hq
    rw [h] at hq
    cases hq

theorem unquoteBody_hexEscape {c : Char} {rest : List Char} {w : Nat} {e : Char}
    (hw : c.toNat < 16 ^ w)
    (hrf : ∀ t, readEscape (e :: t) =
      (readHex w 0 t).bind fun p => (charFromCode p.1).map fun q => (q, p.2)) :
    unquoteBody ('\\' :: e :: (hexDigits w c.toNat ++ rest)) =
      (unquoteBody rest).map (c :: ·) := by
  have hread : readEscape (e :: (hexDigits w c.toNat ++ rest)) = some (c, rest) := by
    rw [hrf, readHex_hexDigits]
    simp [Nat.mod_eq_of_lt hw, charFromCode_toNat]
  rw [unquoteBody_esc hread]

set_option maxHeartbeats 1000000 in
theorem unquoteBody_quoteChar (c : Char) (rest : List Char) :
    unquoteBody (quoteChar c ++ rest) = (unquoteBody rest).map (c :: ·) := by
  unfold quoteChar
  by_cases hq : c = '"' ∨ c = '\\'
  · rw [if_pos hq]
    rcases hq with h | h
    · subst h
      simp only [List.cons_append, List.nil_append]
      rw [@unquoteBody_esc ('"' :: rest) ('"', rest) rfl]
    · subst h
      simp only [List.cons_append, List.nil_append]
      rw [@unquoteBody_esc ('\\' :: rest) ('\\', rest) rfl]
  rw [if_neg hq]
  have hq1 : ¬c = '"' := fun h => hq (Or.inl h)
  have hq2 : ¬c = '\\' := fun h => hq (Or.inr h)
  by_cases hp : goIsPrint c
  · rw [if_pos hp]
    simp only [List.cons_append, List.nil_append]
    exact unquoteBody_cons_plain rest hq2 hq1
  rw [if_neg hp]
  by_cases e1 : c = '\x07'
  · rw [if_pos e1]; subst e1
    simp only [List.cons_append, List.nil_append]
    rw [@unquoteBody_esc ('a' :: rest) ('\x07', rest) rfl]
  rw [if_neg e1]
  by_cases e2 : c = '\x08'
  · rw [if_pos e2]; subst e2
    simp only [List.cons_append, List.nil_append]
    rw [@unquoteBody_esc ('b' :: rest) ('\x08', rest) rfl]
  rw [if_neg e2]
  by_cases e3 : c = '\x0c'
  · rw [if_pos e3]; subst e3
    simp only [List.cons_append, List.nil_append]
    rw [@unquoteBody_esc ('f' :: rest) ('\x0c', rest) rfl]
  rw [if_neg e3]
  by_cases e4 : c = '\n'
  · rw [if_pos e4]; subst e4
    simp only [List.cons_append, List.nil_append]
    rw [@unquoteBody_esc ('n' :: rest) ('\n', rest) rfl]
  rw [if_neg e4]
  by_cases e5 : c = '\r'
  · rw [if_pos e5]; subst e5
    simp only [List.cons_append, List.nil_append]
    rw [@unquoteBody_esc ('r' :: rest) ('\r', rest) rfl]
  rw [if_neg e5]
  by_cases e6 : c = '\t'
  · rw [if_pos e6]; subst e6
    simp only [List.cons_append, List.nil_append]
    rw [@unquoteBody_esc ('t' :: rest) ('\t', rest) rfl]
  rw [if_neg e6]
  by_cases e7 : c = '\x0b'
  · rw [if_pos e7]; subst e7
    simp only [List.cons_append, List.nil_append]
    rw [@unquoteBody_esc ('v' :: rest) ('\x0b', rest) rfl]
  rw [if_neg e7]
  by_cases hx : c.toNat < 0x20 ∨ c.toNat = 0x7F
  · rw [if_pos hx]
    simp only [List.cons_append, List.nil_append]
    exact unquoteBody_hexEscape (by omega) readEscape_x
  rw [if_neg hx]
  by_cases hu : c.toNat < 0x10000
  · rw [if_pos hu]
    simp only [List.cons_append, List.nil_append]
    exact unquoteBody_hexEscape (by omega) readEscape_u
  rw [if_neg hu]
  simp only [List.cons_append, List.nil_append]
  exact unquoteBody_hexEscape (by have := char_toNat_lt c; omega) readEscape_bigU

theorem unquoteBody_quoteBody (cs : List Char) :
    unquoteBody (quoteBody cs) = some cs := by
  induction cs with
  | nil => exact unquoteBody_nil
  | cons c cs ih =>
    show unquoteBody (quoteChar c ++ quoteBody cs) = _
    rw [unquoteBody_quoteChar, ih]
    rfl

theorem goUnquote_goQuote (s : String) : goUnquote (goQuote s) = some s := by
  have h1 : goUnquote (goQuote s) =
      (if (quoteBody s.data ++ ['"']).getLast? = some '"'
        then unquoteBody (quoteBody s.data ++ ['"']).dropLast
        else none).map String.mk := rfl
  rw [h1, List.getLast?_concat, List.dropLast_concat, if_pos rfl, unquoteBody_quoteBody]
  rfl

/-- C2: a key or value string that requires quoting (empty, or containing
Unicode whitespace, the quote character, the separator, or a
non-printable character) renders quoted and round-trips through the
escape syntax back to the original string; a string that does not
require quoting renders quote-free and byte-identical. -/
theorem c2_quoting_roundtrip (s : String) :
    (needsQuoting s = true →
      appendString s true = goQuote s ∧
      goUnquote (appendString s true) = some s) ∧
    (needsQuoting s = false →
      appendString s true = s ∧ '"' ∉ s.data) := by
  constructor
  · intro h
    have ha : appendString s true = goQuote s := by simp [appendString, h]
    exact ⟨ha, by rw [ha]; exact goUnquote_goQuote s⟩
  · intro h
    constructor
    · simp [appendString, h]
    · intro hmem
      have hany : s.data.any
          (fun r => goIsSpace r || r == '"' || r == '=' || !goIsPrint r) = true :=
        List.any_eq_true.mpr ⟨'"', hmem, by decide⟩
      simp [needsQuoting, hany] at h

theorem c2_quoting_roundtrip_witness :
    (needsQuoting "a b" = true ∧ appendString "a b" true = goQuote "a b" ∧
      goUnquote (appendString "a b" true) = some "a b") ∧
    (needsQuoting "ab" = false ∧ appendString "ab" true = "ab" ∧ '"' ∉ "ab".data) :=
  ⟨⟨by decide, ((c2_quoting_roundtrip "a b").1 (by decide)).1,
      ((c2_quoting_roundtrip "a b").1 (by decide)).2⟩,
    ⟨by decide, ((c2_quoting_roundtrip "ab").2 (by decide)).1,
      ((c2_quoting_roundtrip "ab").2 (by decide)).2⟩⟩

/-! ### Concatenation helpers -/

theorem foldl_append_acc (l : List String) :
    ∀ a b : String, l.foldl (· ++ ·) (a ++ b) = a ++ l.foldl (· ++ ·) b := by
  induction l with
  | nil => intro a b; rfl
  | cons c l ih =>
    intro a b
    simp only [List.foldl_cons]
    rw [String.append_assoc]
    exact ih a (b ++ c)

theorem join_cons (s : String) (l : List String) :
    String.join (s :: l) = s ++ String.join l := by
  show (s :: l).foldl (· ++ ·) "" = s ++ l.foldl (· ++ ·) ""
  simp only [List.foldl_cons]
  rw [show ("" : String) ++ s = s ++ "" from by simp]
  exact foldl_append_acc l s ""

theorem appendAttrList_nil (h : Handler) (fuel : Nat) (p : String) (gs : List String) :
    h.appendAttrList fuel [] p gs = "" := rfl

theorem appendAttrList_cons (h : Handler) (fuel : Nat) (a : Attr) (rest : List Attr)
    (p : String) (gs : List String) :
    h.appendAttrList fuel (a :: rest) p gs =
      h.appendAttr fuel a p gs ++ h.appendAttrList fuel rest p gs := by
  unfold Handler.appendAttrList
  rw [List.map_cons, join_cons]

/-! ### Case lemmas for appendAttr -/

theorem resolveRewrite_none (h : Handler) (hrep : h.replaceAttr = none)
    (attr : Attr) (gs : List String) :
    h.resolveRewrite attr gs = .mk attr.key attr.value.resolve := by
  unfold Handler.resolveRewrite
  rw [hrep]

theorem appendAttr_anyError (h : Handler) (hrep : h.replaceAttr = none)
    (fuel : Nat) (k msg : String) (p : String) (gs : List String) :
    h.appendAttr fuel (.mk k (.anyError msg)) p gs = h.appendError msg k p ++ " " := by
  unfold Handler.appendAttr
  rw [resolveRewrite_none h hrep]
  rfl

theorem appendAttr_group (h : Handler) (f : Nat) (k : String) (cs : List Attr)
    (p : String) (gs : List String) :
    h.appendAttr (f + 1) (.mk k (.group cs)) p gs =
      if k = "" then h.appendAttrList f cs p gs
      else h.appendAttrList f cs (p ++ k ++ ".") (gs ++ [k]) := by
  have hres : h.resolveRewrite (.mk k (.group cs)) gs = .mk k (.group cs) := by
    unfold Handler.resolveRewrite
    cases hrep : h.replaceAttr <;> rfl
  unfold Handler.appendAttr
  rw [hres]
  by_cases hk : k = ""
  · subst hk
    simp [Attr.isEmptySentinel, Attr.key, Attr.value, Handler.appendAttrList]
  · simp [Attr.isEmptySentinel, Attr.key, Attr.value, hk, Handler.appendAttrList]

/-! ### C1: error-typed attribute rendering -/

/-- C1 counterexample: the attribute with key err and error message
connection reset does not render as err=connection reset: the message
contains a space, so the value is quoted. -/
theorem c1_error_attr_counterexample :
    (mkHandler true).appendAttr 0 (.mk "err" (.anyError "connection reset")) "" [] =
      "err=\"connection reset\" " ∧
    countOcc "err=connection reset".data
      ((mkHandler true).appendAttr 0 (.mk "err" (.anyError "connection reset")) "" []).data
      = 0 :=
  ⟨by decide, by decide⟩

/-- C1 amended: the error-typed attribute with key err and message
connection reset renders through the error path as err="connection
reset" (the message is quoted because it contains a space), with the
error-specific colour pair (bright-red-faint before the key,
reset-faint before the message) and never the generic faint key
colour. -/
theorem c1_error_attr_rendering :
    ∀ (fuel : Nat) (gs : List String),
      (mkHandler true).appendAttr fuel (.mk "err" (.anyError "connection reset")) "" gs =
        "err=\"connection reset\" " ∧
      (mkHandler false).appendAttr fuel (.mk "err" (.anyError "connection reset")) "" gs =
        ansiBrightRedFaint ++ "err=" ++ ansiResetFaint ++ "\"connection reset\"" ++
          ansiReset ++ " " ∧
      (mkHandler false).appendAttr fuel (.mk "err" (.anyError "connection reset")) "" gs ≠
        ansiFaint ++ "err=" ++ ansiReset ++ "\"connection reset\"" ++ " " := by
  intro fuel gs
  refine ⟨?_, ?_, ?_⟩
  · rw [appendAttr_anyError _ rfl]; decide
  · rw [appendAttr_anyError _ rfl]; decide
  · rw [appendAttr_anyError _ rfl]; decide

/-! ### C3: level labels and deltas -/

theorem appendLevelDelta_eq (lvl ref : Int) :
    appendLevelDelta (lvl - ref) =
      if lvl = ref then ""
      else (if lvl - ref > 0 then "+" else "") ++ intToDec (lvl - ref) := by
  unfold appendLevelDelta
  by_cases h : lvl = ref
  · simp [h]
  · rw [if_neg (fun hc => h (by omega)), if_neg h]

/-- C3: the level label is chosen by half-open numeric ranges with a
signed delta exactly when the level is off the bucket's reference
level; Info+2 renders INF+2 and exactly Warn renders WRN. -/
theorem c3_level_labels :
    (∀ (h : Handler) (lvl : Int),
      Handler.appendLevel { h with noColor := true } lvl =
        levelLabelSpec lvl ++ levelDeltaSpec lvl) ∧
    Handler.appendLevel (mkHandler true) (levelInfo + 2) = "INF+2" ∧
    Handler.appendLevel (mkHandler true) levelWarn = "WRN" := by
  refine ⟨?_, by decide, by decide⟩
  intro h lvl
  unfold Handler.appendLevel levelLabelSpec levelDeltaSpec levelRefSpec writeStringIf
  by_cases h1 : lvl < levelInfo
  · simp only [h1, if_true, if_false, Bool.not_true]
    rw [appendLevelDelta_eq lvl levelDebug]
    simp
  · by_cases h2 : lvl < levelWarn
    · simp only [h1, h2, if_true, if_false, Bool.not_true]
      rw [appendLevelDelta_eq lvl levelInfo]
      simp
    · by_cases h3 : lvl < levelError
      · simp only [h1, h2, h3, if_true, if_false, Bool.not_true]
        rw [appendLevelDelta_eq lvl levelWarn]
        simp
      · simp only [h1, h2, h3, if_true, if_false, Bool.not_true]
        rw [appendLevelDelta_eq lvl levelError]
        simp

/-! ### C4: group flattening -/

/-- C4: a Group attribute with a non-empty key prepends its key (dotted)
for every descendant, on top of the handler's with-group prefix; a
group with an empty key contributes its children at the current prefix;
concretely req.method=GET, and http.req.method=GET under
with_group("http"). -/
theorem c4_group_flattening :
    (∀ (h : Handler) (f : Nat) (k : String) (cs : List Attr) (p : String)
        (gs : List String),
      h.appendAttr (f + 1) (.mk k (.group cs)) p gs =
        if k = "" then h.appendAttrList f cs p gs
        else h.appendAttrList f cs (p ++ k ++ ".") (gs ++ [k])) ∧
    (mkHandler true).appendAttr 1 (.mk "req" (.group [.mk "method" (.str "GET")])) "" [] =
      "req.method=GET " ∧
    (mkHandler true).appendAttr 1 (.mk "req" (.group [.mk "method" (.str "GET")]))
      ((mkHandler true).withGroup "http").groupPrefix
      ((mkHandler true).withGroup "http").groups =
      "http.req.method=GET " :=
  ⟨appendAttr_group, by decide, by decide⟩

/-! ### C6: dropping the empty attribute -/

/-- C6 counterexample: an attribute with an empty key but a non-zero
value (here the string x) is not dropped: it renders as ""=x with the
empty key quoted. -/
theorem c6_empty_key_counterexample :
    (mkHandler true).appendAttr 0 (.mk "" (.str "x")) "" [] = "\"\"=x " ∧
    (mkHandler true).appendAttr 0 (.mk "" (.str "x")) "" [] ≠ "" :=
  ⟨by decide, by decide⟩

/-- C6 amended: after resolving (and rewriting, when a callback is set)
an attribute is dropped, producing no output and no separator, exactly
when the result equals the canonical empty sentinel: empty key AND the
zero (Any nil) value.  An empty key alone does not drop the
attribute. -/
theorem c6_empty_sentinel_drop :
    ∀ (h : Handler) (fuel : Nat) (attr : Attr) (p : String) (gs : List String),
      (h.resolveRewrite attr gs).isEmptySentinel = true →
      h.appendAttr fuel attr p gs = "" := by
  intro h fuel attr p gs hdrop
  unfold Handler.appendAttr
  simp [hdrop]

theorem c6_empty_sentinel_drop_witness :
    ((mkHandler true).resolveRewrite (.mk "" .anyNil) []).isEmptySentinel = true ∧
    (mkHandler true).appendAttr 0 (.mk "" .anyNil) "" [] = "" :=
  ⟨by decide, c6_empty_sentinel_drop (mkHandler true) 0 (.mk "" .anyNil) "" [] (by decide)⟩

/-! ### C7: marshaling failure -/

/-- C7 counterexample: an attribute whose text-marshal capability fails
does not produce no output: the key and the separator are still
emitted. -/
theorem c7_marshal_failure_counterexample :
    (mkHandler true).appendAttr 0 (.mk "k" (.anyTextMarshaler none)) "" [] = "k= " ∧
    (mkHandler true).appendAttr 0 (.mk "k" (.anyTextMarshaler none)) "" [] ≠ "" :=
  ⟨by decide, by decide⟩

/-- C7 amended: a marshaling failure is silently suppressed: the value
renderer emits nothing for the value and handle still succeeds with a
line (no error is modelled because none can arise outside the writer);
the key and its separator are still written, so the attribute
contributes key= followed by the separator. -/
theorem c7_marshal_failure_suppressed :
    (∀ (h : Handler) (q : Bool), h.appendValue (.anyTextMarshaler none) q = "") ∧
    (∀ (h : Handler), h.replaceAttr = none →
      ∀ (fuel : Nat) (k p : String) (gs : List String),
        h.appendAttr fuel (.mk k (.anyTextMarshaler none)) p gs = h.appendKey k p ++ " ") ∧
    (mkHandler true).handle 0 ⟨none, 0, "m", none, [.mk "k" (.anyTextMarshaler none)]⟩ =
      "INF m k=\n" := by
  refine ⟨fun h q => rfl, ?_, by decide⟩
  intro h hrep fuel k p gs
  unfold Handler.appendAttr
  rw [resolveRewrite_none h hrep]
  show h.appendKey k p ++ "" ++ " " = _
  rw [String.append_empty]

theorem c7_marshal_failure_suppressed_witness :
    (mkHandler true).replaceAttr = none ∧
    (mkHandler true).appendAttr 2 (.mk "k" (.anyTextMarshaler none)) "" [] =
      (mkHandler true).appendKey "k" "" ++ " " :=
  ⟨rfl, c7_marshal_failure_suppressed.2.1 (mkHandler true) rfl 2 "k" "" []⟩

/-! ### C9: Time-kind attribute values -/

/-- C9: the value renderer formats a Time-kind value with the default
Time.String representation, independent of the configured time format;
only appendTime (used for the record timestamp) consults timeFormat.
The default representation contains a space, so with quoting enabled a
Time-kind value always renders quoted. -/
theorem c9_time_value_rendering :
    (∀ (h : Handler) (fmt : String) (t : GoTime) (q : Bool),
      Handler.appendValue { h with timeFormat := fmt } (.time t) q =
        h.appendValue (.time t) q) ∧
    (∀ (h : Handler) (t : GoTime) (q : Bool),
      h.appendValue (.time t) q = appendString (goTimeString t) q) ∧
    (∀ t : GoTime, needsQuoting (goTimeString t) = true) ∧
    (∀ (h : Handler) (t : GoTime),
      h.appendValue (.time t) true = goQuote (goTimeString t)) ∧
    (∀ (h : Handler) (t : GoTime),
      h.appendTime t = writeStringIf (!h.noColor) ansiFaint ++ goFormat t h.timeFormat ++
        writeStringIf (!h.noColor) ansiReset) := by
  have hq : ∀ t : GoTime, needsQuoting (goTimeString t) = true := by
    intro t
    unfold needsQuoting
    have hmem : ' ' ∈ (goTimeString t).data := by
      unfold goTimeString
      rw [String.data_append]
      exact List.mem_append.mpr (Or.inr (by decide))
    have hany : (goTimeString t).data.any
        (fun r => goIsSpace r || r == '"' || r == '=' || !goIsPrint r) = true :=
      List.any_eq_true.mpr ⟨' ', hmem, by decide⟩
    rw [hany]
    simp
  refine ⟨fun h fmt t q => rfl, fun h t q => rfl, hq, ?_, fun h t => rfl⟩
  intro h t
  show appendString (goTimeString t) true = _
  unfold appendString
  rw [hq t]
  rfl

/-! ### Occurrence-counting lemmas -/

theorem isPrefixOf_cons_cons (q a : Char) (p' x' : List Char) :
    (q :: p').isPrefixOf (a :: x') = (q == a && p'.isPrefixOf x') := rfl

theorem countOcc_nil {p : List Char} (hp : p ≠ []) : countOcc p [] = 0 := by
  match p with
  | q :: p' => simp [countOcc]

theorem isPrefixOf_extend : ∀ (p x z : List Char),
    p.isPrefixOf x = true → p.isPrefixOf (x ++ z) = true := by
  intro p
  induction p with
  | nil => intro x z _; simp
  | cons q p' ih =>
    intro x z h
    match x with
    | [] => simp at h
    | a :: x' =>
      rw [isPrefixOf_cons_cons, Bool.and_eq_true] at h
      obtain ⟨h1, h2⟩ := h
      rw [List.cons_append, isPrefixOf_cons_cons, h1, ih x' z h2]
      rfl

theorem isPrefixOf_sep : ∀ (p x : List Char) (d : Char) (y : List Char), d ∉ p →
    p.isPrefixOf (x ++ d :: y) = true → p.isPrefixOf x = true := by
  intro p
  induction p with
  | nil => intro x d y _ _; simp
  | cons q p' ih =>
    intro x d y hd h
    match x with
    | [] =>
      rw [List.nil_append, isPrefixOf_cons_cons, Bool.and_eq_true] at h
      exact absurd (List.mem_cons.mpr (Or.inl (beq_iff_eq.mp h.1).symm)) hd
    | a :: x' =>
      rw [List.cons_append, isPrefixOf_cons_cons, Bool.and_eq_true] at h
      obtain ⟨h1, h2⟩ := h
      rw [isPrefixOf_cons_cons, h1,
        ih x' d y (fun hm => hd (List.mem_cons_of_mem q hm)) h2]
      rfl

theorem isPrefixOf_append_disjoint : ∀ (p x y : List Char), (∀ c ∈ y, c ∉ p) →
    p.isPrefixOf (x ++ y) = p.isPrefixOf x := by
  intro p
  induction p with
  | nil => intro x y _; simp
  | cons q p' ih =>
    intro x y hy
    match x with
    | [] =>
      rw [List.nil_append]
      match y with
      | [] => rfl
      | d :: y' =>
        rw [isPrefixOf_cons_cons]
        have hqd : (q == d) = false :=
          beq_eq_false_iff_ne.mpr fun hqd' =>
            hy d (List.mem_cons_self d y') (List.mem_cons.mpr (Or.inl hqd'.symm))
        rw [hqd]
        rfl
    | a :: x' =>
      rw [List.cons_append, isPrefixOf_cons_cons, isPrefixOf_cons_cons,
        ih x' y (fun c hc hm => hy c hc (List.mem_cons_of_mem q hm))]

theorem countOcc_zero_of_disjoint {p : List Char} (hp : p ≠ []) :
    ∀ (y : List Char), (∀ c ∈ y, c ∉ p) → countOcc p y = 0 := by
  intro y
  induction y with
  | nil => intro _; exact countOcc_nil hp
  | cons d y' ih =>
    intro hy
    match p, hp with
    | q :: p', _ =>
      rw [countOcc, isPrefixOf_cons_cons]
      have hqd : (q == d) = false :=
        beq_eq_false_iff_ne.mpr fun hqd' =>
          hy d (List.mem_cons_self d y') (List.mem_cons.mpr (Or.inl hqd'.symm))
      rw [hqd]
      simpa using ih (fun c hc => hy c (List.mem_cons_of_mem d hc))

theorem countOcc_append_disjoint {p : List Char} (hp : p ≠ []) :
    ∀ (x y : List Char), (∀ c ∈ y, c ∉ p) → countOcc p (x ++ y) = countOcc p x := by
  intro x
  induction x with
  | nil =>
    intro y hy
    rw [List.nil_append, countOcc_zero_of_disjoint hp y hy, countOcc_nil hp]
  | cons a x' ih =>
    intro y hy
    rw [List.cons_append, countOcc, countOcc, ih y hy]
    have hpre : p.isPrefixOf (a :: (x' ++ y)) = p.isPrefixOf (a :: x') := by
      have h2 := isPrefixOf_append_disjoint p (a :: x') y hy
      rwa [List.cons_append] at h2
    rw [hpre]

theorem countOcc_disjoint_left {p : List Char} (hp : p ≠ []) :
    ∀ (x y : List Char), (∀ c ∈ x, c ∉ p) → countOcc p (x ++ y) = countOcc p y := by
  intro x
  induction x with
  | nil => intro y _; rfl
  | cons a x' ih =>
    intro y hx
    rw [List.cons_append, countOcc]
    match p, hp with
    | q :: p', _ =>
      rw [isPrefixOf_cons_cons]
      have hqa : (q == a) = false :=
        beq_eq_false_iff_ne.mpr fun hqa' =>
          hx a (List.mem_cons_self a x') (List.mem_cons.mpr (Or.inl hqa'.symm))
      rw [hqa]
      simpa using ih y (fun c hc => hx c (List.mem_cons_of_mem a hc))

theorem countOcc_sep {p : List Char} (hp : p ≠ []) {d : Char} (hd : d ∉ p) :
    ∀ (x y : List Char), countOcc p (x ++ d :: y) = countOcc p x + countOcc p y := by
  intro x
  induction x with
  | nil =>
    intro y
    rw [List.nil_append, countOcc_nil hp, Nat.zero_add, countOcc]
    match p, hp with
    | q :: p', _ =>
      have hqd : (q == d) = false :=
        beq_eq_false_iff_ne.mpr fun hqd' =>
          hd (List.mem_cons.mpr (Or.inl hqd'.symm))
      rw [isPrefixOf_cons_cons, hqd]
      simp
  | cons a x' ih =>
    intro y
    rw [List.cons_append, countOcc, countOcc, ih y]
    have hiff : p.isPrefixOf (a :: (x' ++ d :: y)) = p.isPrefixOf (a :: x') := by
      by_cases hb : p.isPrefixOf (a :: x') = true
      · rw [hb]
        have h2 := isPrefixOf_extend p (a :: x') (d :: y) hb
        rwa [List.cons_append] at h2
      · have hb' : p.isPrefixOf (a :: x') = false := Bool.eq_false_iff.mpr hb
        rw [hb']
        rcases hx2 : p.isPrefixOf (a :: (x' ++ d :: y)) with _ | _
        · rfl
        · have h2 := isPrefixOf_sep p (a :: x') d y hd (by rwa [List.cons_append])
          exact absurd h2 hb
    rw [hiff]
    omega

/-! ### Character classes of decimal and delta renderings -/

theorem digitChar_mem (n : Nat) (h : n < 10) :
    digitChar n ∈ ['0', '1', '2', '3', '4', '5', '6', '7', '8', '9'] := by
  interval_cases n <;> decide

theorem natToDecAux_chars : ∀ (fuel n : Nat) (acc : List Char) (c : Char),
    c ∈ natToDecAux fuel n acc →
      c ∈ ['0', '1', '2', '3', '4', '5', '6', '7', '8', '9'] ∨ c ∈ acc := by
  intro fuel
  induction fuel with
  | zero => intro n acc c hc; exact Or.inr hc
  | succ f ih =>
    intro n acc c hc
    unfold natToDecAux at hc
    by_cases hn : n < 10
    · rw [if_pos hn] at hc
      rcases List.mem_cons.mp hc with h | h
      · exact Or.inl (h ▸ digitChar_mem n hn)
      · exact Or.inr h
    · rw [if_neg hn] at hc
      rcases ih (n / 10) _ c hc with h | h
      · exact Or.inl h
      · rcases List.mem_cons.mp h with h2 | h2
        · exact Or.inl (h2 ▸ digitChar_mem (n % 10) (Nat.mod_lt _ (by omega)))
        · exact Or.inr h2

theorem natDigits_chars {n : Nat} {c : Char} (hc : c ∈ natDigits n) :
    c ∈ ['0', '1', '2', '3', '4', '5', '6', '7', '8', '9'] := by
  rcases natToDecAux_chars (n + 1) n [] c hc with h | h
  · exact h
  · simp at h

theorem intToDec_chars {i : Int} {c : Char} (hc : c ∈ (intToDec i).data) :
    c ∈ ['-', '0', '1', '2', '3', '4', '5', '6', '7', '8', '9'] := by
  unfold intToDec at hc
  by_cases hneg : i < 0
  · rw [if_pos hneg] at hc
    rw [String.data_append] at hc
    rcases List.mem_append.mp hc with h | h
    · simp at h
      simp [h]
    · exact List.mem_cons_of_mem _ (natDigits_chars h)
  · rw [if_neg hneg] at hc
    exact List.mem_cons_of_mem _ (natDigits_chars hc)

theorem appendLevelDelta_chars {d : Int} {c : Char}
    (hc : c ∈ (appendLevelDelta d).data) :
    c ∈ ['+', '-', '0', '1', '2', '3', '4', '5', '6', '7', '8', '9'] := by
  unfold appendLevelDelta at hc
  by_cases h0 : d = 0
  · rw [if_pos h0] at hc; simp at hc
  · rw [if_neg h0, String.data_append] at hc
    rcases List.mem_append.mp hc with h | h
    · by_cases hpos : d > 0
      · rw [if_pos hpos] at h
        simp at h
        simp [h]
      · rw [if_neg hpos] at h
        simp at h
    · rcases intToDec_chars h with h2
      exact List.mem_cons_of_mem _ h2

/-! ### The level label occurs exactly once in the level block -/

theorem levelLabelSpec_shape (lvl : Int) :
    (levelLabelSpec lvl).data ≠ [] ∧ ' ' ∉ (levelLabelSpec lvl).data ∧
      '\n' ∉ (levelLabelSpec lvl).data ∧
      (∀ c ∈ (levelLabelSpec lvl).data, 'A' ≤ c ∧ c ≤ 'Z') := by
  unfold levelLabelSpec
  split_ifs <;> refine ⟨by decide, by decide, by decide, by decide⟩

theorem pd_not_mem_upper {c : Char}
    (hc : c ∈ ['+', '-', '0', '1', '2', '3', '4', '5', '6', '7', '8', '9'])
    {lbl : List Char} (hl : ∀ x ∈ lbl, 'A' ≤ x ∧ x ≤ 'Z') : c ∉ lbl := by
  intro hmem
  have hu := hl c hmem
  fin_cases hc <;> revert hu <;> decide

theorem wsIf_disjoint {b : Bool} {s : String} {p : List Char}
    (hs : ∀ c ∈ s.data, c ∉ p) : ∀ c ∈ (writeStringIf b s).data, c ∉ p := by
  cases b
  · intro c hc
    simp [writeStringIf] at hc
  · intro c hc
    exact hs c hc

theorem countOcc_appendLevel (h : Handler) (lvl : Int) :
    countOcc (levelLabelSpec lvl).data (Handler.appendLevel h lvl).data = 1 := by
  obtain ⟨hne, hsp, hnl, hup⟩ := levelLabelSpec_shape lvl
  unfold Handler.appendLevel
  by_cases h1 : lvl < levelInfo
  · rw [if_pos h1]
    have hlbl : levelLabelSpec lvl = "DBG" := by unfold levelLabelSpec; rw [if_pos h1]
    rw [hlbl] at hne hsp hnl hup ⊢
    simp only [String.data_append, List.append_assoc]
    rw [countOcc_disjoint_left hne _ _ (wsIf_disjoint (by decide))]
    rw [countOcc_append_disjoint hne _ _ ?hy]
    case hy =>
      intro c hc
      rcases List.mem_append.mp hc with hcd | hcw
      · exact pd_not_mem_upper (appendLevelDelta_chars hcd) hup
      · exact wsIf_disjoint (by decide) c hcw
    decide
  · rw [if_neg h1]
    by_cases h2 : lvl < levelWarn
    · rw [if_pos h2]
      have hlbl : levelLabelSpec lvl = "INF" := by
        unfold levelLabelSpec; rw [if_neg h1, if_pos h2]
      rw [hlbl] at hne hsp hnl hup ⊢
      simp only [String.data_append, List.append_assoc]
      rw [countOcc_disjoint_left hne _ _ (wsIf_disjoint (by decide))]
      rw [countOcc_append_disjoint hne _ _ ?hy]
      case hy =>
        intro c hc
        rcases List.mem_append.mp hc with hcd | hcw
        · exact pd_not_mem_upper (appendLevelDelta_chars hcd) hup
        · exact wsIf_disjoint (by decide) c hcw
      decide
    · rw [if_neg h2]
      by_cases h3 : lvl < levelError
      · rw [if_pos h3]
        have hlbl : levelLabelSpec lvl = "WRN" := by
          unfold levelLabelSpec; rw [if_neg h1, if_neg h2, if_pos h3]
        rw [hlbl] at hne hsp hnl hup ⊢
        simp only [String.data_append, List.append_assoc]
        rw [countOcc_disjoint_left hne _ _ (wsIf_disjoint (by decide))]
        rw [countOcc_append_disjoint hne _ _ ?hy]
        case hy =>
          intro c hc
          rcases List.mem_append.mp hc with hcd | hcw
          · exact pd_not_mem_upper (appendLevelDelta_chars hcd) hup
          · exact wsIf_disjoint (by decide) c hcw
        decide
      · rw [if_neg h3]
        have hlbl : levelLabelSpec lvl = "ERR" := by
          unfold levelLabelSpec; rw [if_neg h1, if_neg h2, if_neg h3]
        rw [hlbl] at hne hsp hnl hup ⊢
        simp only [String.data_append, List.append_assoc]
        rw [countOcc_disjoint_left hne _ _ (wsIf_disjoint (by decide))]
        rw [countOcc_append_disjoint hne _ _ ?hy]
        case hy =>
          intro c hc
          rcases List.mem_append.mp hc with hcd | hcw
          · exact pd_not_mem_upper (appendLevelDelta_chars hcd) hup
          · exact wsIf_disjoint (by decide) c hcw
        decide

/-! ### C5: finalization and line shape -/

/-- C5 counterexample: the quantified output property fails on
adversarial records.  A message that itself contains the level label
makes the label occur twice, and a message ending in a newline makes
the output end in two line terminators. -/
theorem c5_line_shape_counterexample :
    levelLabelSpec 0 = "INF" ∧
    countOcc "INF".data ((mkHandler true).handle 0
      ⟨some ⟨2024, 1, 2, 3, 4, 5, 0⟩, 0, "INF", none, []⟩).data = 2 ∧
    ((mkHandler true).handle 0
      ⟨some ⟨2024, 1, 2, 3, 4, 5, 0⟩, 0, "x\n", none, []⟩).data.getLast? = some '\n' ∧
    ((mkHandler true).handle 0
      ⟨some ⟨2024, 1, 2, 3, 4, 5, 0⟩, 0, "x\n", none, []⟩).data.dropLast.getLast? =
      some '\n' :=
  ⟨by decide, by decide, by decide, by decide⟩

/-- C5 amended: if nothing was written into the buffer, handle emits
nothing and succeeds; otherwise the final trailing separator is
overwritten with a newline.  For a record with a non-zero timestamp, a
level and a message and no attributes, on a handler with no rewrite
callback, no stored attribute text and no source, the output ends with
exactly one line terminator and contains exactly one occurrence of the
rendered level label, provided the formatted timestamp and the message
do not themselves contain the label and the message does not end in a
newline. -/
theorem c5_finalization :
    (∀ (h : Handler) (fuel : Nat) (r : Record),
      h.timeSegment r ++ h.levelSegment r ++ h.sourceSegment r ++ h.messageSegment r ++
          h.attrsPrefix ++ h.appendAttrList fuel r.attrs h.groupPrefix h.groups = "" →
      h.handle fuel r = "") ∧
    (∀ (h : Handler) (fuel : Nat) (t : GoTime) (lvl : Int) (msg : String),
      h.replaceAttr = none → h.attrsPrefix = "" → h.addSource = false →
      countOcc (levelLabelSpec lvl).data (goFormat t h.timeFormat).data = 0 →
      countOcc (levelLabelSpec lvl).data msg.data = 0 →
      msg.data.getLast? ≠ some '\n' →
      ∃ q : List Char,
        (h.handle fuel ⟨some t, lvl, msg, none, []⟩).data = q ++ ['\n'] ∧
        q.getLast? ≠ some '\n' ∧
        countOcc (levelLabelSpec lvl).data
          (h.handle fuel ⟨some t, lvl, msg, none, []⟩).data = 1) := by
  constructor
  · intro h fuel r hbuf
    unfold Handler.handle
    rw [hbuf]
    rfl
  · intro h fuel t lvl msg hrep hpre hsrc hT hM hMn
    obtain ⟨hne, hsp, hnl, hup⟩ := levelLabelSpec_shape lvl
    have hsp' : ' ' ∉ (levelLabelSpec lvl).data := hsp
    have hbuf : h.timeSegment ⟨some t, lvl, msg, none, []⟩ ++
        h.levelSegment ⟨some t, lvl, msg, none, []⟩ ++
        h.sourceSegment ⟨some t, lvl, msg, none, []⟩ ++
        h.messageSegment ⟨some t, lvl, msg, none, []⟩ ++ h.attrsPrefix ++
        h.appendAttrList fuel [] h.groupPrefix h.groups =
        (h.appendTime t ++ " ") ++ (h.appendLevel lvl ++ " ") ++ (msg ++ " ") := by
      rw [appendAttrList_nil, hpre]
      simp [Handler.timeSegment, Handler.levelSegment, Handler.sourceSegment,
        Handler.messageSegment, hrep, hsrc]
    have hdata : ((h.appendTime t ++ " ") ++ (h.appendLevel lvl ++ " ") ++
        (msg ++ " ")).data =
        ((h.appendTime t).data ++ ' ' :: ((h.appendLevel lvl).data ++ ' ' :: msg.data))
          ++ [' '] := by
      simp [String.data_append]
    have hnonempty : (h.appendTime t ++ " ") ++ (h.appendLevel lvl ++ " ") ++
        (msg ++ " ") ≠ "" := by
      intro hcontra
      have hc2 := congrArg String.data hcontra
      rw [hdata] at hc2
      simp at hc2
    have hout : h.handle fuel ⟨some t, lvl, msg, none, []⟩ =
        finalize ((h.appendTime t ++ " ") ++ (h.appendLevel lvl ++ " ") ++ (msg ++ " ")) := by
      unfold Handler.handle
      rw [hbuf, if_neg hnonempty]
    have hfaint : ∀ c ∈ ansiFaint.data, c ∉ (levelLabelSpec lvl).data := by
      unfold levelLabelSpec
      split_ifs <;> decide
    have hreset : ∀ c ∈ ansiReset.data, c ∉ (levelLabelSpec lvl).data := by
      unfold levelLabelSpec
      split_ifs <;> decide
    refine ⟨(h.appendTime t).data ++ ' ' :: ((h.appendLevel lvl).data ++ ' ' :: msg.data),
      ?_, ?_, ?_⟩
    · rw [hout]
      show ((h.appendTime t ++ " ") ++ (h.appendLevel lvl ++ " ") ++
        (msg ++ " ")).data.dropLast ++ ['\n'] = _
      rw [hdata, List.dropLast_concat]
    · rcases hmsg : msg.data with _ | ⟨c0, cs⟩
      · have hq : (h.appendTime t).data ++
            ' ' :: ((h.appendLevel lvl).data ++ [' ']) =
            ((h.appendTime t).data ++ ' ' :: (h.appendLevel lvl).data) ++ [' '] := by
          simp
        rw [hq, List.getLast?_concat]
        simp
      · have hq : (h.appendTime t).data ++
            ' ' :: ((h.appendLevel lvl).data ++ ' ' :: (c0 :: cs)) =
            ((h.appendTime t).data ++ ' ' :: ((h.appendLevel lvl).data ++ [' '])) ++
              (c0 :: cs) := by
          simp
        rw [hq, List.getLast?_append]
        rcases hlast : (c0 :: cs).getLast? with _ | d
        · simp at hlast
        · intro hcontra
          simp at hcontra
          apply hMn
          rw [hmsg, hlast, hcontra]
    · rw [hout]
      show countOcc (levelLabelSpec lvl).data
        (((h.appendTime t ++ " ") ++ (h.appendLevel lvl ++ " ") ++
          (msg ++ " ")).data.dropLast ++ ['\n']) = 1
      rw [hdata, List.dropLast_concat]
      have hshape : ((h.appendTime t).data ++ ' ' ::
          ((h.appendLevel lvl).data ++ ' ' :: msg.data)) ++ ['\n'] =
          (h.appendTime t).data ++ ' ' ::
          ((h.appendLevel lvl).data ++ ' ' :: (msg.data ++ ['\n'])) := by
        simp
      rw [hshape, countOcc_sep hne hsp']
      have hata : (h.appendTime t).data = (writeStringIf (!h.noColor) ansiFaint).data ++
          ((goFormat t h.timeFormat).data ++ (writeStringIf (!h.noColor) ansiReset).data) := by
        unfold Handler.appendTime
        simp [String.data_append]
      rw [hata, countOcc_disjoint_left hne _ _ (wsIf_disjoint hfaint),
        countOcc_append_disjoint hne _ _ (wsIf_disjoint hreset), hT,
        countOcc_sep hne hsp', countOcc_appendLevel,
        countOcc_append_disjoint hne _ _ (fun c hc => by
          simp at hc
          rw [hc]
          exact hnl),
        hM]

theorem c5_finalization_witness :
    ((mkHandler true).timeSegment ⟨none, 0, "", none, []⟩ ++
        (mkHandler true).levelSegment ⟨none, 0, "", none, []⟩ ++
        (mkHandler true).sourceSegment ⟨none, 0, "", none, []⟩ ++
        (mkHandler true).messageSegment ⟨none, 0, "", none, []⟩ ++
        (mkHandler true).attrsPrefix ++
        (mkHandler true).appendAttrList 0 [] (mkHandler true).groupPrefix
          (mkHandler true).groups ≠ "" ∧
      (mkHandler true).replaceAttr = none ∧
      countOcc (levelLabelSpec 0).data
        (goFormat ⟨2024, 1, 2, 3, 4, 5, 0⟩ (mkHandler true).timeFormat).data = 0 ∧
      ∃ q : List Char,
        ((mkHandler true).handle 0
          ⟨some ⟨2024, 1, 2, 3, 4, 5, 0⟩, 0, "hi", none, []⟩).data = q ++ ['\n'] ∧
        q.getLast? ≠ some '\n' ∧
        countOcc (levelLabelSpec 0).data
          ((mkHandler true).handle 0
            ⟨some ⟨2024, 1, 2, 3, 4, 5, 0⟩, 0, "hi", none, []⟩).data = 1) :=
  ⟨by decide, rfl, by decide,
    c5_finalization.2 (mkHandler true) 0 ⟨2024, 1, 2, 3, 4, 5, 0⟩ 0 "hi" rfl rfl rfl
      (by decide) (by decide) (by decide)⟩

/-! ### C10: group lists passed to the rewrite callback -/

theorem appendValue_rep (h : Handler) (rp : Option (List String → Attr → Attr))
    (v : Value) (q : Bool) :
    Handler.appendValue { h with replaceAttr := rp } v q = h.appendValue v q := by
  cases v <;> rfl

theorem appendTime_rep (h : Handler) (rp : Option (List String → Attr → Attr))
    (t : GoTime) :
    Handler.appendTime { h with replaceAttr := rp } t = h.appendTime t := rfl

theorem appendSource_rep (h : Handler) (rp : Option (List String → Attr → Attr))
    (src : Source) :
    Handler.appendSource { h with replaceAttr := rp } src = h.appendSource src := rfl

/-- The rewrite step of appendAttr consults the callback with exactly
the group list it is handed, on non-group resolved values. -/
theorem resolveRewrite_agree (h : Handler) (rep₁ rep₂ : List String → Attr → Attr)
    (attr : Attr) (gs : List String)
    (hag : rep₁ gs (.mk attr.key attr.value.resolve) =
      rep₂ gs (.mk attr.key attr.value.resolve)) :
    Handler.resolveRewrite { h with replaceAttr := some rep₁ } attr gs =
      Handler.resolveRewrite { h with replaceAttr := some rep₂ } attr gs := by
  unfold Handler.resolveRewrite
  by_cases hk : attr.value.resolve.kind = ValueKind.group
  · show (if attr.value.resolve.kind = ValueKind.group then _ else _) =
      (if attr.value.resolve.kind = ValueKind.group then _ else _)
    rw [if_pos hk, if_pos hk]
  · show (if attr.value.resolve.kind = ValueKind.group then _ else _) =
      (if attr.value.resolve.kind = ValueKind.group then _ else _)
    rw [if_neg hk, if_neg hk, hag]

/-- Rewrite callbacks that agree on every non-empty group list render
record attributes identically whenever the handed group list is
non-empty (as it is under a with_group handler): the callback is never
consulted with the empty list on this path. -/
theorem appendAttr_rep_nonempty_agree :
    ∀ (fuel : Nat) (h : Handler) (rep₁ rep₂ : List String → Attr → Attr)
      (attr : Attr) (p : String) (gs : List String),
      gs ≠ [] → (∀ (gs' : List String) (a : Attr), gs' ≠ [] → rep₁ gs' a = rep₂ gs' a) →
      Handler.appendAttr { h with replaceAttr := some rep₁ } fuel attr p gs =
        Handler.appendAttr { h with replaceAttr := some rep₂ } fuel attr p gs := by
  intro fuel
  induction fuel with
  | zero =>
    intro h rep₁ rep₂ attr p gs hgs hagree
    unfold Handler.appendAttr
    rw [resolveRewrite_agree h rep₁ rep₂ attr gs (hagree gs _ hgs)]
    rcases Handler.resolveRewrite { h with replaceAttr := some rep₂ } attr gs with ⟨k, v⟩
    cases v <;> rfl
  | succ f ih =>
    intro h rep₁ rep₂ attr p gs hgs hagree
    unfold Handler.appendAttr
    rw [resolveRewrite_agree h rep₁ rep₂ attr gs (hagree gs _ hgs)]
    rcases Handler.resolveRewrite { h with replaceAttr := some rep₂ } attr gs with ⟨k, v⟩
    cases v <;> try rfl
    case group cs =>
      show (if (Attr.mk k (Value.group cs)).isEmptySentinel then "" else _) =
        (if (Attr.mk k (Value.group cs)).isEmptySentinel then "" else _)
      rw [if_neg (by simp [Attr.isEmptySentinel, Attr.value]),
        if_neg (by simp [Attr.isEmptySentinel, Attr.value])]
      by_cases hk : k = ""
      · simp only [Attr.key, hk, if_pos]
        show String.join _ = String.join _
        congr 1
        apply List.map_congr_left
        intro ca _
        exact ih h rep₁ rep₂ ca p gs hgs hagree
      · simp only [Attr.key, if_neg hk]
        show String.join _ = String.join _
        congr 1
        apply List.map_congr_left
        intro ca _
        exact ih h rep₁ rep₂ ca (p ++ k ++ ".") (gs ++ [k]) (by simp) hagree

/-- Rewrite callbacks that agree on the empty group list render the
time, level, source and message blocks identically: those reserved
pseudo-attributes are passed to the callback with the empty (nil) group
list, never the handler's group stack. -/
theorem handle_header_rep_agree (h : Handler) (fuel : Nat) (r : Record)
    (rep₁ rep₂ : List String → Attr → Attr)
    (hagree : ∀ a : Attr, rep₁ [] a = rep₂ [] a) (hattrs : r.attrs = []) :
    Handler.handle { h with replaceAttr := some rep₁ } fuel r =
      Handler.handle { h with replaceAttr := some rep₂ } fuel r := by
  have hts : Handler.timeSegment { h with replaceAttr := some rep₁ } r =
      Handler.timeSegment { h with replaceAttr := some rep₂ } r := by
    unfold Handler.timeSegment
    cases r.time with
    | none => rfl
    | some t => simp only [hagree, appendValue_rep, appendTime_rep]
  have hls : Handler.levelSegment { h with replaceAttr := some rep₁ } r =
      Handler.levelSegment { h with replaceAttr := some rep₂ } r := by
    unfold Handler.levelSegment
    simp only [hagree, appendValue_rep]
  have hss : Handler.sourceSegment { h with replaceAttr := some rep₁ } r =
      Handler.sourceSegment { h with replaceAttr := some rep₂ } r := by
    unfold Handler.sourceSegment
    cases r.source with
    | none => rfl
    | some src => simp only [hagree, appendValue_rep, appendSource_rep]
  have hms : Handler.messageSegment { h with replaceAttr := some rep₁ } r =
      Handler.messageSegment { h with replaceAttr := some rep₂ } r := by
    unfold Handler.messageSegment
    simp only [hagree, appendValue_rep]
  unfold Handler.handle
  rw [hts, hls, hss, hms, hattrs]
  rfl

/-- C10: on a handler with a non-empty group stack, the rewrite
callback receives the empty group list for the reserved time, level,
source and message pseudo-attributes (callbacks agreeing at the empty
list render the header identically) and the handler's full group stack
for record attributes (callbacks agreeing on non-empty lists render the
attributes identically); concretely, a callback returning H at the
empty list and q=A elsewhere renders H H g.q=A on a with_group
handler. -/
theorem c10_rep_group_lists :
    (∀ (h : Handler) (fuel : Nat) (r : Record)
      (rep₁ rep₂ : List String → Attr → Attr),
      (∀ a : Attr, rep₁ [] a = rep₂ [] a) → r.attrs = [] →
      Handler.handle { h with replaceAttr := some rep₁ } fuel r =
        Handler.handle { h with replaceAttr := some rep₂ } fuel r) ∧
    (∀ (fuel : Nat) (h : Handler) (rep₁ rep₂ : List String → Attr → Attr)
      (attr : Attr) (p : String) (gs : List String),
      gs ≠ [] → (∀ (gs' : List String) (a : Attr), gs' ≠ [] → rep₁ gs' a = rep₂ gs' a) →
      Handler.appendAttr { h with replaceAttr := some rep₁ } fuel attr p gs =
        Handler.appendAttr { h with replaceAttr := some rep₂ } fuel attr p gs) ∧
    Handler.handle c10Handler 1
      ⟨none, 0, "m", none, [.mk "x" (.str "y")]⟩ = "H H g.q=A\n" :=
  ⟨handle_header_rep_agree, appendAttr_rep_nonempty_agree, by decide⟩

theorem c10_rep_group_lists_witness :
    ((∀ a : Attr, (fun (_ : List String) (_ : Attr) => Attr.mk "c" (.str "1")) [] a =
        (fun (gs : List String) (_ : Attr) =>
          if gs = [] then Attr.mk "c" (.str "1") else Attr.mk "d" (.str "2")) [] a) ∧
      Handler.handle { mkHandler true with
          replaceAttr := some (fun (_ : List String) (_ : Attr) => Attr.mk "c" (.str "1")) } 0
        ⟨none, 0, "m", none, []⟩ =
        Handler.handle { mkHandler true with
          replaceAttr := some (fun (gs : List String) (_ : Attr) =>
            if gs = [] then Attr.mk "c" (.str "1") else Attr.mk "d" (.str "2")) } 0
        ⟨none, 0, "m", none, []⟩) ∧
    ((["g"] : List String) ≠ [] ∧
      Handler.appendAttr { mkHandler true with
          replaceAttr := some (fun (gs : List String) (_ : Attr) =>
            if gs = [] then Attr.mk "x" (.str "0") else Attr.mk "e" (.str "3")) } 1
        (.mk "a" (.str "b")) "g." ["g"] =
        Handler.appendAttr { mkHandler true with
          replaceAttr := some (fun (gs : List String) (_ : Attr) =>
            if gs = [] then Attr.mk "y" (.str "9") else Attr.mk "e" (.str "3")) } 1
        (.mk "a" (.str "b")) "g." ["g"]) :=
  ⟨⟨fun a => by simp,
    c10_rep_group_lists.1 (mkHandler true) 0 ⟨none, 0, "m", none, []⟩ _ _
      (fun a => by simp) rfl⟩,
    ⟨by simp,
      c10_rep_group_lists.2.1 1 (mkHandler true) _ _ (.mk "a" (.str "b")) "g." ["g"]
        (by simp)
        (fun gs' a hgs' => by simp [if_neg hgs'])⟩⟩

/-! ### Stripping lemmas -/

theorem stripAux_nil : stripAnsiAux [] = [] := by rw [stripAnsiAux.eq_def]

theorem stripAux_cons {c : Char} (hc : ¬c = '\x1b') (l : List Char) :
    stripAnsiAux (c :: l) = c :: stripAnsiAux l := by
  rw [stripAnsiAux.eq_def]
  exact if_neg hc

theorem stripAux_esc (r2 : List Char) :
    stripAnsiAux ('\x1b' :: '[' :: r2) =
      stripAnsiAux (List.drop 1 (r2.dropWhile isCsiParam)) := by
  rw [stripAnsiAux.eq_def]
  exact if_pos rfl

theorem dropWhile_append_all {p : Char → Bool} :
    ∀ (l₁ : List Char), (∀ c ∈ l₁, p c = true) → ∀ l₂ : List Char,
      List.dropWhile p (l₁ ++ l₂) = List.dropWhile p l₂ := by
  intro l₁
  induction l₁ with
  | nil => intro _ l₂; rfl
  | cons c l ih =>
    intro hall l₂
    rw [List.cons_append, List.dropWhile_cons, if_pos (hall c (List.mem_cons_self c l))]
    exact ih (fun d hd => hall d (List.mem_cons_of_mem c hd)) l₂

theorem strel_nil : StripRelL [] [] := fun _ => rfl

theorem strel_append {a₁ b₁ a₂ b₂ : List Char} (h₁ : StripRelL a₁ b₁)
    (h₂ : StripRelL a₂ b₂) : StripRelL (a₁ ++ a₂) (b₁ ++ b₂) := by
  intro t
  rw [List.append_assoc, h₁ (a₂ ++ t), h₂ t, List.append_assoc]

theorem strel_clean {a : List Char} (ha : ∀ c ∈ a, c ≠ '\x1b') : StripRelL a a := by
  induction a with
  | nil => exact strel_nil
  | cons c l ih =>
    intro t
    rw [List.cons_append, stripAux_cons (ha c (List.mem_cons_self c l)),
      ih (fun d hd => ha d (List.mem_cons_of_mem c hd)) t, List.cons_append]

theorem strel_csi (params : List Char) (hp : ∀ c ∈ params, isCsiParam c = true)
    (final : Char) (hf : isCsiParam final = false) :
    StripRelL ('\x1b' :: '[' :: (params ++ [final])) [] := by
  intro t
  have hshape : ('\x1b' :: '[' :: (params ++ [final])) ++ t =
      '\x1b' :: '[' :: (params ++ final :: t) := by simp
  rw [hshape, stripAux_esc, dropWhile_append_all params hp,
    List.dropWhile_cons, if_neg (by rw [hf]; exact Bool.false_ne_true)]
  rfl

theorem strel_ansiReset : StripRelL ansiReset.data [] :=
  strel_csi ['0'] (by decide) 'm' (by decide)

theorem strel_ansiFaint : StripRelL ansiFaint.data [] :=
  strel_csi ['2'] (by decide) 'm' (by decide)

theorem strel_ansiBrightMagentaFaint : StripRelL ansiBrightMagentaFaint.data [] :=
  strel_csi ['9', '5', ';', '2'] (by decide) 'm' (by decide)

theorem strel_ansiResetFaint : StripRelL ansiResetFaint.data [] :=
  strel_csi ['2', '2'] (by decide) 'm' (by decide)

theorem strel_ansiBrightRed : StripRelL ansiBrightRed.data [] :=
  strel_csi ['9', '1'] (by decide) 'm' (by decide)

theorem strel_ansiBrightRedFaint : StripRelL ansiBrightRedFaint.data [] :=
  strel_csi ['9', '1', ';', '2'] (by decide) 'm' (by decide)

theorem strel_ansiBrightGreen : StripRelL ansiBrightGreen.data [] :=
  strel_csi ['9', '2'] (by decide) 'm' (by decide)

theorem strel_ansiBrightYellow : StripRelL ansiBrightYellow.data [] :=
  strel_csi ['9', '3'] (by decide) 'm' (by decide)

/-! ### Escape-freedom of rendered text -/

theorem hexDigits_chars : ∀ (w n : Nat) (c : Char), c ∈ hexDigits w n →
    ('0' ≤ c ∧ c ≤ '9') ∨ ('a' ≤ c ∧ c ≤ 'f') := by
  intro w
  induction w with
  | zero => intro n c hc; simp [hexDigits] at hc
  | succ w ih =>
    intro n c hc
    rcases List.mem_cons.mp hc with h | h
    · have hlt : n / 16 ^ w % 16 < 16 := Nat.mod_lt _ (by omega)
      rw [h]
      revert hlt
      generalize n / 16 ^ w % 16 = d
      intro hlt
      interval_cases d <;> first
        | exact Or.inl (by decide)
        | exact Or.inr (by decide)
    · exact ih n c h

theorem quoteChar_clean (c c' : Char) (h : c' ∈ quoteChar c) : c' ≠ '\x1b' := by
  unfold quoteChar at h
  by_cases h1 : c = '"' ∨ c = '\\'
  · rw [if_pos h1] at h
    rcases List.mem_cons.mp h with h | h
    · rw [h]; decide
    · simp at h
      rcases h1 with h1 | h1 <;> rw [h, h1] <;> decide
  rw [if_neg h1] at h
  by_cases h2 : goIsPrint c
  · rw [if_pos h2] at h
    simp at h
    rw [h]
    intro hesc
    rw [hesc] at h2
    exact absurd h2 (by decide)
  rw [if_neg h2] at h
  by_cases e1 : c = '\x07'
  · rw [if_pos e1] at h; fin_cases h <;> decide
  rw [if_neg e1] at h
  by_cases e2 : c = '\x08'
  · rw [if_pos e2] at h; fin_cases h <;> decide
  rw [if_neg e2] at h
  by_cases e3 : c = '\x0c'
  · rw [if_pos e3] at h; fin_cases h <;> decide
  rw [if_neg e3] at h
  by_cases e4 : c = '\n'
  · rw [if_pos e4] at h; fin_cases h <;> decide
  rw [if_neg e4] at h
  by_cases e5 : c = '\r'
  · rw [if_pos e5] at h; fin_cases h <;> decide
  rw [if_neg e5] at h
  by_cases e6 : c = '\t'
  · rw [if_pos e6] at h; fin_cases h <;> decide
  rw [if_neg e6] at h
  by_cases e7 : c = '\x0b'
  · rw [if_pos e7] at h; fin_cases h <;> decide
  rw [if_neg e7] at h
  by_cases hx : c.toNat < 0x20 ∨ c.toNat = 0x7F
  · rw [if_pos hx] at h
    rcases List.mem_cons.mp h with h | h
    · rw [h]; decide
    · rcases List.mem_cons.mp h with h | h
      · rw [h]; decide
      · rcases hexDigits_chars 2 c.toNat c' h with ⟨hl, _⟩ | ⟨hl, _⟩ <;>
          (intro hesc; rw [hesc] at hl; exact absurd hl (by decide))
  rw [if_neg hx] at h
  by_cases hu : c.toNat < 0x10000
  · rw [if_pos hu] at h
    rcases List.mem_cons.mp h with h | h
    · rw [h]; decide
    · rcases List.mem_cons.mp h with h | h
      · rw [h]; decide
      · rcases hexDigits_chars 4 c.toNat c' h with ⟨hl, _⟩ | ⟨hl, _⟩ <;>
          (intro hesc; rw [hesc] at hl; exact absurd hl (by decide))
  rw [if_neg hu] at h
  rcases List.mem_cons.mp h with h | h
  · rw [h]; decide
  · rcases List.mem_cons.mp h with h | h
    · rw [h]; decide
    · rcases hexDigits_chars 8 c.toNat c' h with ⟨hl, _⟩ | ⟨hl, _⟩ <;>
        (intro hesc; rw [hesc] at hl; exact absurd hl (by decide))

theorem quoteBody_clean : ∀ (cs : List Char) (c' : Char), c' ∈ quoteBody cs → c' ≠ '\x1b' := by
  intro cs
  induction cs with
  | nil => intro c' hc'; simp [quoteBody] at hc'
  | cons c cs ih =>
    intro c' hc'
    rcases List.mem_append.mp hc' with h | h
    · exact quoteChar_clean c c' h
    · exact ih c' h

theorem needsQuoting_false_chars {s : String} (h : needsQuoting s = false) :
    ∀ c ∈ s.data, goIsPrint c = true := by
  intro c hc
  unfold needsQuoting at h
  rcases Bool.or_eq_false_iff.mp h with ⟨_, hany⟩
  have h2 := List.any_eq_false.mp hany c hc
  rcases hgp : goIsPrint c with _ | _
  · exact absurd (by rw [hgp]; simp) h2
  · rfl

theorem appendString_clean (s : String) : ∀ c' ∈ (appendString s true).data, c' ≠ '\x1b' := by
  unfold appendString
  rcases hq : needsQuoting s with _ | _
  · rw [show (true && false) = false from rfl]
    intro c' hc' heq
    have hpr := needsQuoting_false_chars hq c' hc'
    rw [heq] at hpr
    exact absurd hpr (by decide)
  · rw [show (true && true) = true from rfl]
    intro c' hc'
    have hdata : (goQuote s).data = '"' :: (quoteBody s.data ++ ['"']) := rfl
    rw [if_pos rfl, hdata] at hc'
    rcases List.mem_cons.mp hc' with h | h
    · rw [h]; decide
    · rcases List.mem_append.mp h with h | h
      · exact quoteBody_clean s.data c' h
      · simp at h
        rw [h]
        decide

theorem natDigits_clean {n : Nat} : ∀ c ∈ natDigits n, c ≠ '\x1b' := by
  intro c hc
  have := natDigits_chars hc
  fin_cases this <;> decide

theorem intToDec_clean {i : Int} : ∀ c ∈ (intToDec i).data, c ≠ '\x1b' := by
  intro c hc
  have := intToDec_chars hc
  fin_cases this <;> decide

theorem appendLevelDelta_clean {d : Int} : ∀ c ∈ (appendLevelDelta d).data, c ≠ '\x1b' := by
  intro c hc
  have := appendLevelDelta_chars hc
  fin_cases this <;> decide

theorem escFree_chars {s : String} (h : escFree s = true) : ∀ c ∈ s.data, c ≠ '\x1b' := by
  intro c hc
  have := List.all_eq_true.mp h c hc
  intro heq
  rw [heq] at this
  exact absurd this (by decide)

/-! ### Stripping relations for the renderers -/

theorem strel_appendKey (h : Handler) (k p : String) :
    StripRelL (Handler.appendKey { h with noColor := false } k p).data
      (Handler.appendKey { h with noColor := true } k p).data :=
  strel_append (strel_append (strel_append strel_ansiFaint
    (strel_clean (appendString_clean (p ++ k)))) (strel_clean (by decide)))
    strel_ansiReset

theorem strel_appendError (h : Handler) (msg k p : String) :
    StripRelL (Handler.appendError { h with noColor := false } msg k p).data
      (Handler.appendError { h with noColor := true } msg k p).data :=
  strel_append (strel_append (strel_append (strel_append (strel_append
    strel_ansiBrightRedFaint
    (strel_clean (appendString_clean (p ++ k)))) (strel_clean (by decide)))
    strel_ansiResetFaint) (strel_clean (appendString_clean msg)))
    strel_ansiReset

theorem strel_appendTime (h : Handler) (t : GoTime)
    (hfmt : escFree (goFormat t h.timeFormat) = true) :
    StripRelL (Handler.appendTime { h with noColor := false } t).data
      (Handler.appendTime { h with noColor := true } t).data :=
  strel_append (strel_append strel_ansiFaint (strel_clean (escFree_chars hfmt)))
    strel_ansiReset

theorem strel_appendLevel (h : Handler) (lvl : Int) :
    StripRelL (Handler.appendLevel { h with noColor := false } lvl).data
      (Handler.appendLevel { h with noColor := true } lvl).data := by
  unfold Handler.appendLevel
  by_cases h1 : lvl < levelInfo
  · rw [if_pos h1, if_pos h1]
    exact strel_append (strel_append (strel_append strel_ansiBrightMagentaFaint
      (strel_clean (by decide))) (strel_clean appendLevelDelta_clean)) strel_ansiReset
  rw [if_neg h1, if_neg h1]
  by_cases h2 : lvl < levelWarn
  · rw [if_pos h2, if_pos h2]
    exact strel_append (strel_append (strel_append strel_ansiBrightGreen
      (strel_clean (by decide))) (strel_clean appendLevelDelta_clean)) strel_ansiReset
  rw [if_neg h2, if_neg h2]
  by_cases h3 : lvl < levelError
  · rw [if_pos h3, if_pos h3]
    exact strel_append (strel_append (strel_append strel_ansiBrightYellow
      (strel_clean (by decide))) (strel_clean appendLevelDelta_clean)) strel_ansiReset
  rw [if_neg h3, if_neg h3]
  exact strel_append (strel_append (strel_append strel_ansiBrightRed
    (strel_clean (by decide))) (strel_clean appendLevelDelta_clean)) strel_ansiReset

theorem filepathSplitFile_chars {p : String} {c : Char}
    (hc : c ∈ (filepathSplitFile p).data) : c ∈ p.data := by
  unfold filepathSplitFile at hc
  have h1 := List.mem_reverse.mp hc
  have h2 : c ∈ p.data.reverse :=
    (List.takeWhile_sublist (fun x => x ≠ '/')).subset h1
  exact List.mem_reverse.mp h2

theorem filepathSplitDir_chars {p : String} {c : Char}
    (hc : c ∈ (filepathSplitDir p).data) : c ∈ p.data := by
  unfold filepathSplitDir at hc
  exact (List.take_sublist _ _).subset hc

theorem filepathBase_chars {p : String} {c : Char}
    (hc : c ∈ (filepathBase p).data) : c ∈ p.data ∨ c = '.' ∨ c = '/' := by
  unfold filepathBase at hc
  by_cases hp : p = ""
  · rw [if_pos hp] at hc
    simp at hc
    exact Or.inr (Or.inl hc)
  rw [if_neg hp] at hc
  by_cases hnil : p.data.reverse.dropWhile (· = '/') = []
  · rw [if_pos hnil] at hc
    simp at hc
    exact Or.inr (Or.inr hc)
  · rw [if_neg hnil] at hc
    have h1 := List.mem_reverse.mp hc
    have h2 : c ∈ p.data.reverse.dropWhile (· = '/') :=
      (List.takeWhile_sublist (fun x => x ≠ '/')).subset h1
    have h3 : c ∈ p.data.reverse :=
      (List.dropWhile_sublist (· = '/')).subset h2
    exact Or.inl (List.mem_reverse.mp h3)

theorem filepathJoin_chars {a b : String} {c : Char}
    (hc : c ∈ (filepathJoin a b).data) : c ∈ a.data ∨ c ∈ b.data ∨ c = '/' := by
  unfold filepathJoin at hc
  by_cases ha : a = ""
  · rw [if_pos ha] at hc
    exact Or.inr (Or.inl hc)
  rw [if_neg ha] at hc
  by_cases hb : b = ""
  · rw [if_pos hb] at hc
    exact Or.inl hc
  · rw [if_neg hb] at hc
    rw [String.data_append, String.data_append] at hc
    rcases List.mem_append.mp hc with h | h
    · rcases List.mem_append.mp h with h | h
      · exact Or.inl h
      · simp at h
        exact Or.inr (Or.inr h)
    · exact Or.inr (Or.inl h)

theorem strel_appendSource (h : Handler) (src : Source)
    (hf : escFree src.file = true) :
    StripRelL (Handler.appendSource { h with noColor := false } src).data
      (Handler.appendSource { h with noColor := true } src).data := by
  have hjoin : ∀ c ∈ (filepathJoin (filepathBase (filepathSplitDir src.file))
      (filepathSplitFile src.file)).data, c ≠ '\x1b' := by
    intro c hc
    rcases filepathJoin_chars hc with h1 | h1 | h1
    · rcases filepathBase_chars h1 with h2 | h2 | h2
      · exact escFree_chars hf c (filepathSplitDir_chars h2)
      · rw [h2]; decide
      · rw [h2]; decide
    · exact escFree_chars hf c (filepathSplitFile_chars h1)
    · rw [h1]; decide
  exact strel_append (strel_append (strel_append (strel_append strel_ansiFaint
    (strel_clean hjoin)) (strel_clean (by decide))) (strel_clean natDigits_clean))
    strel_ansiReset

theorem strel_appendValue (h : Handler) (v : Value) (hv : v.escClean = true) :
    StripRelL (Handler.appendValue { h with noColor := false } v true).data
      (Handler.appendValue { h with noColor := true } v true).data := by
  cases v with
  | str s => exact strel_clean (appendString_clean s)
  | int64 i => exact strel_clean intToDec_clean
  | uint64 n => exact strel_clean natDigits_clean
  | float64 g =>
    exact strel_clean (escFree_chars (by simpa [Value.escClean] using hv))
  | bool b =>
    cases b
    · show StripRelL ("false" : String).data ("false" : String).data
      exact strel_clean (by decide)
    · show StripRelL ("true" : String).data ("true" : String).data
      exact strel_clean (by decide)
  | duration d => exact strel_clean (appendString_clean d)
  | time t => exact strel_clean (appendString_clean (goTimeString t))
  | group cs => exact strel_nil
  | lazy v => exact strel_nil
  | anyLevel l => exact strel_appendLevel h l
  | anyTextMarshaler m =>
    cases m with
    | none => exact strel_nil
    | some d => exact strel_clean (appendString_clean d)
  | anySource src =>
    exact strel_appendSource h src (by simpa [Value.escClean] using hv)
  | anyError msg => exact strel_clean (appendString_clean msg)
  | anyNil => exact strel_clean (appendString_clean "<nil>")
  | anyOther r => exact strel_clean (appendString_clean r)

/-! ### Segment relations -/

theorem resolve_escClean : ∀ v : Value, v.resolve.escClean = v.escClean
  | .str _ => rfl
  | .int64 _ => rfl
  | .uint64 _ => rfl
  | .float64 _ => rfl
  | .bool _ => rfl
  | .duration _ => rfl
  | .time _ => rfl
  | .group _ => rfl
  | .anyError _ => rfl
  | .anyLevel _ => rfl
  | .anyTextMarshaler _ => rfl
  | .anySource _ => rfl
  | .anyNil => rfl
  | .anyOther _ => rfl
  | .lazy v => resolve_escClean v

theorem appendAttr_eq (h : Handler) (hrep : h.replaceAttr = none)
    (fuel : Nat) (k : String) (v : Value) (p : String) (gs : List String) :
    h.appendAttr fuel (.mk k v) p gs =
      if (Attr.mk k v.resolve).isEmptySentinel then ""
      else
        match v.resolve with
        | .group childAttrs =>
          match fuel with
          | 0 => ""
          | f + 1 =>
            if k = "" then
              String.join (childAttrs.map (fun ca => h.appendAttr f ca p gs))
            else
              String.join (childAttrs.map (fun ca =>
                h.appendAttr f ca (p ++ k ++ ".") (gs ++ [k])))
        | .anyError msg => h.appendError msg k p ++ " "
        | _ => h.appendKey k p ++ h.appendValue v.resolve true ++ " " := by
  conv_lhs => rw [Handler.appendAttr.eq_def]
  rw [resolveRewrite_none h hrep]
  simp only [Attr.key, Attr.value]

theorem seg_rel_empty : SegRel "" "" := Or.inl ⟨rfl, rfl⟩

theorem seg_rel_sep {a b : String} (h : StripRelL a.data b.data) :
    SegRel (a ++ " ") (b ++ " ") := Or.inr ⟨a, b, rfl, rfl, h⟩

theorem seg_rel_append {a b c d : String} (h₁ : SegRel a b) (h₂ : SegRel c d) :
    SegRel (a ++ c) (b ++ d) := by
  rcases h₂ with ⟨hc, hd⟩ | ⟨c', d', hc, hd, hcd⟩
  · rw [hc, hd, String.append_empty, String.append_empty]
    exact h₁
  rcases h₁ with ⟨ha, hb⟩ | ⟨a', b', ha, hb, hab⟩
  · rw [ha, hb, String.empty_append, String.empty_append]
    exact Or.inr ⟨c', d', hc, hd, hcd⟩
  · refine Or.inr ⟨a' ++ " " ++ c', b' ++ " " ++ d', ?_, ?_, ?_⟩
    · rw [ha, hc, String.append_assoc, String.append_assoc, String.append_assoc]
    · rw [hb, hd, String.append_assoc, String.append_assoc, String.append_assoc]
    · exact strel_append (strel_append hab (strel_clean (by decide))) hcd

theorem strel_append_str {a b c d : String} (h₁ : StripRelL a.data b.data)
    (h₂ : StripRelL c.data d.data) : StripRelL (a ++ c).data (b ++ d).data := by
  rw [String.data_append, String.data_append]
  exact strel_append h₁ h₂

theorem seg_rel_appendAttr (h : Handler) (hrep : h.replaceAttr = none) :
    ∀ (fuel : Nat) (a : Attr), a.value.escClean = true →
    ∀ (gp : String) (gs : List String),
      SegRel (Handler.appendAttr { h with noColor := false } fuel a gp gs)
        (Handler.appendAttr { h with noColor := true } fuel a gp gs) := by
  intro fuel
  induction fuel with
  | zero =>
    intro a hv gp gs
    obtain ⟨k, v⟩ := a
    rw [appendAttr_eq { h with noColor := false } hrep,
        appendAttr_eq { h with noColor := true } hrep]
    have hvr : v.resolve.escClean = true := (resolve_escClean v).trans hv
    rcases hres : v.resolve with s | i | n | g | b | d | t | cs | msg | lv | m | src | _ | rp | w
    case str =>
      exact seg_rel_sep (strel_append_str (strel_appendKey h k gp)
        (strel_appendValue h (Value.str s) (by rw [← hres]; exact hvr)))
    case int64 =>
      exact seg_rel_sep (strel_append_str (strel_appendKey h k gp)
        (strel_appendValue h (Value.int64 i) (by rw [← hres]; exact hvr)))
    case uint64 =>
      exact seg_rel_sep (strel_append_str (strel_appendKey h k gp)
        (strel_appendValue h (Value.uint64 n) (by rw [← hres]; exact hvr)))
    case float64 =>
      exact seg_rel_sep (strel_append_str (strel_appendKey h k gp)
        (strel_appendValue h (Value.float64 g) (by rw [← hres]; exact hvr)))
    case bool =>
      exact seg_rel_sep (strel_append_str (strel_appendKey h k gp)
        (strel_appendValue h (Value.bool b) (by rw [← hres]; exact hvr)))
    case duration =>
      exact seg_rel_sep (strel_append_str (strel_appendKey h k gp)
        (strel_appendValue h (Value.duration d) (by rw [← hres]; exact hvr)))
    case time =>
      exact seg_rel_sep (strel_append_str (strel_appendKey h k gp)
        (strel_appendValue h (Value.time t) (by rw [← hres]; exact hvr)))
    case anyLevel =>
      exact seg_rel_sep (strel_append_str (strel_appendKey h k gp)
        (strel_appendValue h (Value.anyLevel lv) (by rw [← hres]; exact hvr)))
    case anyTextMarshaler =>
      exact seg_rel_sep (strel_append_str (strel_appendKey h k gp)
        (strel_appendValue h (Value.anyTextMarshaler m) (by rw [← hres]; exact hvr)))
    case anySource =>
      exact seg_rel_sep (strel_append_str (strel_appendKey h k gp)
        (strel_appendValue h (Value.anySource src) (by rw [← hres]; exact hvr)))
    case anyOther =>
      exact seg_rel_sep (strel_append_str (strel_appendKey h k gp)
        (strel_appendValue h (Value.anyOther rp) (by rw [← hres]; exact hvr)))
    case lazy =>
      exact seg_rel_sep (strel_append_str (strel_appendKey h k gp)
        (strel_appendValue h (Value.lazy w) (by rw [← hres]; exact hvr)))
    case group => exact seg_rel_empty
    case anyError =>
      exact seg_rel_sep (strel_appendError h msg k gp)
    case anyNil =>
      by_cases hk : k = ""
      · subst hk
        exact seg_rel_empty
      · rw [if_neg (show ¬((Attr.mk k Value.anyNil).isEmptySentinel = true) from
              fun hco => hk (eq_of_beq hco)),
            if_neg (show ¬((Attr.mk k Value.anyNil).isEmptySentinel = true) from
              fun hco => hk (eq_of_beq hco))]
        exact seg_rel_sep (strel_append_str (strel_appendKey h k gp)
          (strel_appendValue h Value.anyNil (by rw [← hres]; exact hvr)))
  | succ f ih =>
    intro a hv gp gs
    obtain ⟨k, v⟩ := a
    rw [appendAttr_eq { h with noColor := false } hrep,
        appendAttr_eq { h with noColor := true } hrep]
    have hvr : v.resolve.escClean = true := (resolve_escClean v).trans hv
    rcases hres : v.resolve with s | i | n | g | b | d | t | cs | msg | lv | m | src | _ | rp | w
    case str =>
      exact seg_rel_sep (strel_append_str (strel_appendKey h k gp)
        (strel_appendValue h (Value.str s) (by rw [← hres]; exact hvr)))
    case int64 =>
      exact seg_rel_sep (strel_append_str (strel_appendKey h k gp)
        (strel_appendValue h (Value.int64 i) (by rw [← hres]; exact hvr)))
    case uint64 =>
      exact seg_rel_sep (strel_append_str (strel_appendKey h k gp)
        (strel_appendValue h (Value.uint64 n) (by rw [← hres]; exact hvr)))
    case float64 =>
      exact seg_rel_sep (strel_append_str (strel_appendKey h k gp)
        (strel_appendValue h (Value.float64 g) (by rw [← hres]; exact hvr)))
    case bool =>
      exact seg_rel_sep (strel_append_str (strel_appendKey h k gp)
        (strel_appendValue h (Value.bool b) (by rw [← hres]; exact hvr)))
    case duration =>
      exact seg_rel_sep (strel_append_str (strel_appendKey h k gp)
        (strel_appendValue h (Value.duration d) (by rw [← hres]; exact hvr)))
    case time =>
      exact seg_rel_sep (strel_append_str (strel_appendKey h k gp)
        (strel_appendValue h (Value.time t) (by rw [← hres]; exact hvr)))
    case anyLevel =>
      exact seg_rel_sep (strel_append_str (strel_appendKey h k gp)
        (strel_appendValue h (Value.anyLevel lv) (by rw [← hres]; exact hvr)))
    case anyTextMarshaler =>
      exact seg_rel_sep (strel_append_str (strel_appendKey h k gp)
        (strel_appendValue h (Value.anyTextMarshaler m) (by rw [← hres]; exact hvr)))
    case anySource =>
      exact seg_rel_sep (strel_append_str (strel_appendKey h k gp)
        (strel_appendValue h (Value.anySource src) (by rw [← hres]; exact hvr)))
    case anyOther =>
      exact seg_rel_sep (strel_append_str (strel_appendKey h k gp)
        (strel_appendValue h (Value.anyOther rp) (by rw [← hres]; exact hvr)))
    case lazy =>
      exact seg_rel_sep (strel_append_str (strel_appendKey h k gp)
        (strel_appendValue h (Value.lazy w) (by rw [← hres]; exact hvr)))
    case group =>
      have hcs : attrsClean cs = true := by rw [hres] at hvr; exact hvr
      have hjoin : ∀ (l : List Attr), attrsClean l = true →
          ∀ (p : String) (g : List String),
          SegRel (String.join (l.map fun ca =>
              Handler.appendAttr { h with noColor := false } f ca p g))
            (String.join (l.map fun ca =>
              Handler.appendAttr { h with noColor := true } f ca p g)) := by
        intro l
        induction l with
        | nil => intro _ p g; exact seg_rel_empty
        | cons x rest ihl =>
          intro hl p g
          obtain ⟨k', v'⟩ := x
          rw [show attrsClean (Attr.mk k' v' :: rest) = (v'.escClean && attrsClean rest)
              from rfl, Bool.and_eq_true] at hl
          rw [List.map_cons, List.map_cons, join_cons, join_cons]
          exact seg_rel_append (ih (Attr.mk k' v') hl.1 p g) (ihl hl.2 p g)
      show SegRel
        (if k = "" then
          String.join (cs.map fun ca =>
            Handler.appendAttr { h with noColor := false } f ca gp gs)
        else
          String.join (cs.map fun ca =>
            Handler.appendAttr { h with noColor := false } f ca (gp ++ k ++ ".") (gs ++ [k])))
        (if k = "" then
          String.join (cs.map fun ca =>
            Handler.appendAttr { h with noColor := true } f ca gp gs)
        else
          String.join (cs.map fun ca =>
            Handler.appendAttr { h with noColor := true } f ca (gp ++ k ++ ".") (gs ++ [k])))
      by_cases hk : k = ""
      · rw [if_pos hk, if_pos hk]
        exact hjoin cs hcs gp gs
      · rw [if_neg hk, if_neg hk]
        exact hjoin cs hcs (gp ++ k ++ ".") (gs ++ [k])
    case anyError =>
      exact seg_rel_sep (strel_appendError h msg k gp)
    case anyNil =>
      by_cases hk : k = ""
      · subst hk
        exact seg_rel_empty
      · rw [if_neg (show ¬((Attr.mk k Value.anyNil).isEmptySentinel = true) from
              fun hco => hk (eq_of_beq hco)),
            if_neg (show ¬((Attr.mk k Value.anyNil).isEmptySentinel = true) from
              fun hco => hk (eq_of_beq hco))]
        exact seg_rel_sep (strel_append_str (strel_appendKey h k gp)
          (strel_appendValue h Value.anyNil (by rw [← hres]; exact hvr)))

theorem seg_rel_appendAttrList (h : Handler) (hrep : h.replaceAttr = none)
    (fuel : Nat) (l : List Attr) (hl : attrsClean l = true)
    (p : String) (gs : List String) :
    SegRel (Handler.appendAttrList { h with noColor := false } fuel l p gs)
      (Handler.appendAttrList { h with noColor := true } fuel l p gs) := by
  induction l with
  | nil => exact seg_rel_empty
  | cons x rest ih =>
    obtain ⟨k', v'⟩ := x
    rw [show attrsClean (Attr.mk k' v' :: rest) = (v'.escClean && attrsClean rest)
        from rfl, Bool.and_eq_true] at hl
    rw [appendAttrList_cons, appendAttrList_cons]
    exact seg_rel_append (seg_rel_appendAttr h hrep fuel (Attr.mk k' v') hl.1 p gs)
      (ih hl.2)

theorem seg_rel_timeSegment (h : Handler) (hrep : h.replaceAttr = none) (r : Record)
    (hfmt : ∀ t, r.time = some t → escFree (goFormat t h.timeFormat) = true) :
    SegRel (Handler.timeSegment { h with noColor := false } r)
      (Handler.timeSegment { h with noColor := true } r) := by
  unfold Handler.timeSegment
  rcases ht : r.time with _ | t
  · exact seg_rel_empty
  · simp only [hrep]
    exact seg_rel_sep (strel_appendTime h t (hfmt t ht))

theorem seg_rel_levelSegment (h : Handler) (hrep : h.replaceAttr = none) (r : Record) :
    SegRel (Handler.levelSegment { h with noColor := false } r)
      (Handler.levelSegment { h with noColor := true } r) := by
  unfold Handler.levelSegment
  simp only [hrep]
  exact seg_rel_sep (strel_appendLevel h r.level)

theorem seg_rel_sourceSegment (h : Handler) (hrep : h.replaceAttr = none) (r : Record)
    (hsrc : ∀ src, r.source = some src → escFree src.file = true) :
    SegRel (Handler.sourceSegment { h with noColor := false } r)
      (Handler.sourceSegment { h with noColor := true } r) := by
  unfold Handler.sourceSegment
  by_cases hadd : h.addSource = true
  · simp only [hadd, eq_self_iff_true, if_true]
    rcases hs : r.source with _ | src
    · exact seg_rel_empty
    · by_cases hf : src.file = ""
      · simp only [hf, eq_self_iff_true, if_true]
        exact seg_rel_empty
      · simp only [if_neg hf, hrep]
        exact seg_rel_sep (strel_appendSource h src (hsrc src hs))
  · rw [Bool.not_eq_true] at hadd
    simp only [hadd, Bool.false_eq_true, if_false]
    exact seg_rel_empty

theorem seg_rel_messageSegment (h : Handler) (hrep : h.replaceAttr = none) (r : Record)
    (hmsg : escFree r.message = true) :
    SegRel (Handler.messageSegment { h with noColor := false } r)
      (Handler.messageSegment { h with noColor := true } r) := by
  unfold Handler.messageSegment
  simp only [hrep]
  exact seg_rel_sep (strel_clean (escFree_chars hmsg))

theorem seg_rel_attrsPrefix (s : String) (hesc : escFree s = true)
    (hshape : s = "" ∨ ∃ p', s = p' ++ " ") : SegRel s s := by
  rcases hshape with h0 | ⟨p', hp⟩
  · rw [h0]
    exact seg_rel_empty
  · rw [hp]
    refine seg_rel_sep (strel_clean fun c hc => escFree_chars hesc c ?_)
    rw [hp, String.data_append]
    exact List.mem_append_left _ hc

theorem handle_strip (bufC bufNC : String) (hseg : SegRel bufC bufNC) :
    (if bufNC = "" then "" else finalize bufNC) =
      stripAnsi (if bufC = "" then "" else finalize bufC) := by
  rcases hseg with ⟨hc, hn⟩ | ⟨a', b', ha, hb, hrel⟩
  · rw [hc, hn]
    show ("" : String) = String.mk (stripAnsiAux ("" : String).data)
    rw [show ("" : String).data = ([] : List Char) from rfl, stripAux_nil]
  · have hCne : ¬bufC = "" := by
      rw [ha]
      intro hco
      have h1 : (a' ++ " ").data.length = 0 := by rw [hco]; rfl
      rw [show (a' ++ " ").data = a'.data ++ [' '] from rfl] at h1
      simp at h1
    have hNne : ¬bufNC = "" := by
      rw [hb]
      intro hco
      have h1 : (b' ++ " ").data.length = 0 := by rw [hco]; rfl
      rw [show (b' ++ " ").data = b'.data ++ [' '] from rfl] at h1
      simp at h1
    rw [if_neg hNne, if_neg hCne, ha, hb]
    show String.mk ((b' ++ " ").data.dropLast ++ ['\n']) =
      stripAnsi (String.mk ((a' ++ " ").data.dropLast ++ ['\n']))
    rw [show (b' ++ " ").data = b'.data ++ [' '] from rfl,
        show (a' ++ " ").data = a'.data ++ [' '] from rfl,
        List.dropLast_concat, List.dropLast_concat]
    show String.mk (b'.data ++ ['\n']) = String.mk (stripAnsiAux (a'.data ++ ['\n']))
    rw [hrel ['\n'], stripAux_cons (by decide), stripAux_nil]

/-! ### C8: colour stripping -/

/-- C8 counterexample: the claimed equality does not hold for every
record: a record whose message itself contains an ANSI escape sequence
renders that sequence verbatim in both modes, and stripping the colored
output also deletes the user's own escape bytes. -/
theorem c8_strip_counterexample :
    ¬ ∀ (h : Handler) (fuel : Nat) (r : Record),
        Handler.handle { h with noColor := true } fuel r =
          stripAnsi (Handler.handle { h with noColor := false } fuel r) := by
  intro hall
  have h1 := hall (mkHandler false) 0 ⟨none, 0, "\x1b[0m", none, []⟩
  have hNCval : Handler.handle { mkHandler false with noColor := true } 0
      ⟨none, 0, "\x1b[0m", none, []⟩ = "INF \x1b[0m\n" := by decide
  have hCval : Handler.handle { mkHandler false with noColor := false } 0
      ⟨none, 0, "\x1b[0m", none, []⟩ = "\x1b[92mINF\x1b[0m \x1b[0m\n" := by decide
  have hstrip : stripAnsi "\x1b[92mINF\x1b[0m \x1b[0m\n" = "INF \n" := by
    show String.mk (stripAnsiAux ("\x1b[92mINF\x1b[0m \x1b[0m\n" : String).data) = "INF \n"
    rw [show ("\x1b[92mINF\x1b[0m \x1b[0m\n" : String).data =
        '\x1b' :: '[' :: ('9' :: '2' :: 'm' :: 'I' :: 'N' :: 'F' :: '\x1b' :: '[' :: '0' ::
          'm' :: ' ' :: '\x1b' :: '[' :: '0' :: 'm' :: '\n' :: []) from rfl,
      stripAux_esc,
      show List.drop 1 (List.dropWhile isCsiParam
          ('9' :: '2' :: 'm' :: 'I' :: 'N' :: 'F' :: '\x1b' :: '[' :: '0' :: 'm' :: ' ' ::
            '\x1b' :: '[' :: '0' :: 'm' :: '\n' :: [])) =
        'I' :: 'N' :: 'F' :: '\x1b' :: '[' :: ('0' :: 'm' :: ' ' :: '\x1b' :: '[' :: '0' ::
          'm' :: '\n' :: []) from rfl,
      stripAux_cons (show ¬('I' : Char) = '\x1b' from by decide),
      stripAux_cons (show ¬('N' : Char) = '\x1b' from by decide),
      stripAux_cons (show ¬('F' : Char) = '\x1b' from by decide),
      stripAux_esc,
      show List.drop 1 (List.dropWhile isCsiParam
          ('0' :: 'm' :: ' ' :: '\x1b' :: '[' :: '0' :: 'm' :: '\n' :: [])) =
        ' ' :: '\x1b' :: '[' :: ('0' :: 'm' :: '\n' :: []) from rfl,
      stripAux_cons (show ¬(' ' : Char) = '\x1b' from by decide),
      stripAux_esc,
      show List.drop 1 (List.dropWhile isCsiParam ('0' :: 'm' :: '\n' :: [])) =
        '\n' :: [] from rfl,
      stripAux_cons (show ¬('\n' : Char) = '\x1b' from by decide),
      stripAux_nil]
  rw [hNCval, hCval, hstrip] at h1
  exact absurd h1 (by decide)

/-- C8 (amended): with no rewrite callback, with a stored attribute
prefix that is free of the ESC byte and either empty or ending in the
separator, with a record timestamp whose formatted text is free of the
ESC byte, and with ESC-free record content (message, source file path
and attribute payloads), the output produced with color disabled equals
the output produced with color enabled after deleting every ANSI escape
sequence. -/
theorem c8_color_stripping (h : Handler) (fuel : Nat) (r : Record)
    (hrep : h.replaceAttr = none)
    (hpfx : escFree h.attrsPrefix = true)
    (hshape : h.attrsPrefix = "" ∨ ∃ p' : String, h.attrsPrefix = p' ++ " ")
    (hfmt : ∀ t, r.time = some t → escFree (goFormat t h.timeFormat) = true)
    (hclean : r.escClean = true) :
    Handler.handle { h with noColor := true } fuel r =
      stripAnsi (Handler.handle { h with noColor := false } fuel r) := by
  rw [Record.escClean, Bool.and_eq_true, Bool.and_eq_true] at hclean
  obtain ⟨⟨hmsg, hsrcm⟩, hattrs⟩ := hclean
  have hsrc : ∀ src, r.source = some src → escFree src.file = true := by
    intro src hs
    rw [hs] at hsrcm
    exact hsrcm
  exact handle_strip _ _
    (seg_rel_append (seg_rel_append (seg_rel_append (seg_rel_append (seg_rel_append
      (seg_rel_timeSegment h hrep r hfmt) (seg_rel_levelSegment h hrep r))
      (seg_rel_sourceSegment h hrep r hsrc)) (seg_rel_messageSegment h hrep r hmsg))
      (seg_rel_attrsPrefix h.attrsPrefix hpfx hshape))
      (seg_rel_appendAttrList h hrep fuel r.attrs hattrs h.groupPrefix h.groups))

theorem c8_color_stripping_witness :
    ((mkHandler false).replaceAttr = none ∧
      escFree (mkHandler false).attrsPrefix = true ∧
      ((mkHandler false).attrsPrefix = "" ∨
        ∃ p' : String, (mkHandler false).attrsPrefix = p' ++ " ") ∧
      (∀ t : GoTime, (none : Option GoTime) = some t →
        escFree (goFormat t (mkHandler false).timeFormat) = true) ∧
      Record.escClean ⟨none, 2, "ready", none, [.mk "port" (.uint64 80)]⟩ = true) ∧
    Handler.handle { mkHandler false with noColor := true } 1
        ⟨none, 2, "ready", none, [.mk "port" (.uint64 80)]⟩ =
      stripAnsi (Handler.handle { mkHandler false with noColor := false } 1
        ⟨none, 2, "ready", none, [.mk "port" (.uint64 80)]⟩) :=
  by
  refine ⟨⟨rfl, by decide, Or.inl rfl, ?_, by decide⟩, ?_⟩
  · exact fun t ht => nomatch ht
  · exact c8_color_stripping (mkHandler false) 1
      ⟨none, 2, "ready", none, [.mk "port" (.uint64 80)]⟩
      rfl (by decide) (Or.inl rfl) (fun t ht => nomatch ht) (by decide)

end Tinter






